import Mathlib

/-!
SoundBlaster DSP emulation (sw/sbplay.cpp): embedding and verified properties

The C translation unit keeps one global `sbdsp_t sbdsp` that every function
reads and writes.  Here every function takes the device state and returns the
new one.  Machine integers are natural numbers; wherever a C expression is
stored into a narrower field the reduction `% 2^w` is written out.  Values of
C type `uint8_t` handed in from outside (port values, DMA bytes) range over
`0..255`; theorems that depend on this say so.
-/

namespace SBDSP

/-! ## Constants (the `#define` lines) -/

def DSP_VERSION_MAJOR : Nat := 2
def DSP_VERSION_MINOR : Nat := 1

def DSP_RESET : Nat := 0x6
def DSP_READ : Nat := 0xA
def DSP_WRITE : Nat := 0xC
def DSP_WRITE_STATUS : Nat := 0xC
def DSP_READ_STATUS : Nat := 0xE

def OUTPUT_SAMPLERATE : Nat := 49716

def DSP_DMA_HS_SINGLE : Nat := 0x91
def DSP_DMA_HS_AUTO : Nat := 0x90
def DSP_DMA_SINGLE : Nat := 0x14
def DSP_DMA_AUTO : Nat := 0x1C
def DSP_DMA_BLOCK_SIZE : Nat := 0x48
def DSP_SET_TIME_CONSTANT : Nat := 0x40
def DSP_DMA_PAUSE : Nat := 0xD0
def DSP_ENABLE_SPEAKER : Nat := 0xD1
def DSP_DISABLE_SPEAKER : Nat := 0xD3
def DSP_DMA_RESUME : Nat := 0xD4
def DSP_IDENT : Nat := 0xE0
def DSP_VERSION : Nat := 0xE1
def DSP_WRITETEST : Nat := 0xE4
def DSP_READTEST : Nat := 0xE8
def DSP_IRQ : Nat := 0xF2

def DSP_DMA_FIFO_SIZE : Nat := 1024

/-! ## Device state -/

/-- The global `sbdsp` of type `sbdsp_t`, field for field, followed by the part
of the outside world that the translation unit acts on through calls whose
bodies live elsewhere (`PIC_AddEvent`, `PIC_RemoveEvents`, `PIC_ActivateIRQ`,
`PIC_DeActivateIRQ`, `DMA_Start_Write`, `printf`). -/
structure sbdsp_t where
  inbox : Nat
  outbox : Nat
  test_register : Nat
  current_command : Nat
  current_command_index : Nat
  dma_interval : Nat
  dma_interval_trim : Int
  dma_buffer : Nat → Nat
  dma_buffer_tail : Nat
  dma_buffer_head : Nat
  dma_block_size : Nat
  dma_sample_count : Nat
  dma_sample_count_rx : Nat
  time_constant : Nat
  sample_rate : Nat
  sample_step : Nat
  cycle_us : Nat
  sample_offset : Nat
  sample_factor : Nat
  autoinit : Bool
  dma_enabled : Bool
  dav_pc : Bool
  dav_dsp : Bool
  dsp_busy : Bool
  reset_state : Nat
  /-- Delays of the pacing events (`DSP_DMA_Event`) waiting in the scheduler. -/
  pic_events : List Int
  /-- Host interrupt line. -/
  pic_irq : Bool
  /-- Number of DMA transfers requested with `DMA_Start_Write`. -/
  dma_started : Nat
  /-- Number of times `OVERRRUN` was printed. -/
  overrun_reports : Nat
  /-- Number of times `WARN - DAV_DSP OVERWRITE` was printed. -/
  overwrite_warnings : Nat

/-- The state at program start: `sbdsp` is a zero-initialised global, nothing is
scheduled and nothing has been printed. -/
def sbdsp_zero : sbdsp_t :=
  { inbox := 0, outbox := 0, test_register := 0, current_command := 0,
    current_command_index := 0, dma_interval := 0, dma_interval_trim := 0,
    dma_buffer := fun _ => 0, dma_buffer_tail := 0, dma_buffer_head := 0,
    dma_block_size := 0, dma_sample_count := 0, dma_sample_count_rx := 0,
    time_constant := 0, sample_rate := 0, sample_step := 0, cycle_us := 0,
    sample_offset := 0, sample_factor := 0, autoinit := false, dma_enabled := false,
    dav_pc := false, dav_dsp := false, dsp_busy := false, reset_state := 0,
    pic_events := [], pic_irq := false, dma_started := 0, overrun_reports := 0,
    overwrite_warnings := 0 }

/-! ## External collaborators -/

/-- Modelled from the spec: the scheduler call `schedule(callback, delay,
recurring=false)`, of which the source has only the call sites
`PIC_AddEvent(DSP_DMA_Event, delay, 1)`; it queues one pacing event. -/
def PIC_AddEvent (delay : Int) (s : sbdsp_t) : sbdsp_t :=
  { s with pic_events := s.pic_events ++ [delay] }

/-- Modelled from the spec: the scheduler call `cancel(callback)`, of which the
source has only the call site `PIC_RemoveEvents(DSP_DMA_Event)`; it drops every
pending pacing event. -/
def PIC_RemoveEvents (s : sbdsp_t) : sbdsp_t :=
  { s with pic_events := [] }

/-- Modelled from the spec: `assert_irq()`, called as `PIC_ActivateIRQ()`. -/
def PIC_ActivateIRQ (s : sbdsp_t) : sbdsp_t :=
  { s with pic_irq := true }

/-- Modelled from the spec: `deassert_irq()`, called as `PIC_DeActivateIRQ()`. -/
def PIC_DeActivateIRQ (s : sbdsp_t) : sbdsp_t :=
  { s with pic_irq := false }

/-- The C library `memcpy(buffer + dst, src + from, n)` into the caller's
memory.  The caller's memory is addressed by the signed offset from the pointer
`buffer` that was passed in, so that a destination computed below `buffer` is
still a definite place. -/
def memcpy (mem : Int → Nat) (dst : Int) (src : Nat → Nat) (start n : Nat) : Int → Nat :=
  fun a => if dst ≤ a ∧ a < dst + (n : Int) then src (start + (a - dst).toNat) else mem a

/-! ## Sample FIFO -/

/-- `sbdsp_fifo_level`.  The operands are promoted to `int`; the result is
converted to `uint16_t`, which is what adding `65536` before `% 65536` computes
for every pair of 16-bit indices. -/
def sbdsp_fifo_level (s : sbdsp_t) : Nat :=
  if s.dma_buffer_tail < s.dma_buffer_head then
    (65536 + DSP_DMA_FIFO_SIZE - (s.dma_buffer_head - s.dma_buffer_tail)) % 65536
  else
    (s.dma_buffer_tail - s.dma_buffer_head) % 65536

/-- `sbdsp_fifo_rx`. -/
def sbdsp_fifo_rx (byte : Nat) (s : sbdsp_t) : sbdsp_t :=
  let s1 : sbdsp_t :=
    if sbdsp_fifo_level s + 1 = DSP_DMA_FIFO_SIZE then
      { s with overrun_reports := s.overrun_reports + 1 }
    else s
  let s2 : sbdsp_t :=
    { s1 with dma_buffer := fun i => if i = s1.dma_buffer_tail then byte else s1.dma_buffer i }
  let s3 : sbdsp_t := { s2 with dma_buffer_tail := (s2.dma_buffer_tail + 1) % 65536 }
  if s3.dma_buffer_tail = DSP_DMA_FIFO_SIZE then { s3 with dma_buffer_tail := 0 } else s3

/-- `sbdsp_fifo_clear`. -/
def sbdsp_fifo_clear (s : sbdsp_t) : sbdsp_t :=
  { s with dma_buffer_head := s.dma_buffer_tail }

/-- `sbdsp_fifo_half`. -/
def sbdsp_fifo_half (s : sbdsp_t) : Bool :=
  if sbdsp_fifo_level s ≥ DSP_DMA_FIFO_SIZE / 2 then true else false

/-- `sbdsp_fifo_tx`: the new state, the caller's memory afterwards, and the
returned count.  The second copy of the wrapping branch goes to
`buffer + 256 - head`, as in the source.  `head += len - DSP_DMA_FIFO_SIZE` is
computed in `int` and stored to 16 bits.  The two byte counts of the wrapping
branch are differences that C computes in `int`; they are non-negative, and so
equal to the truncated differences written here, whenever `head ≤ 1024`. -/
def sbdsp_fifo_tx (s : sbdsp_t) (buffer : Int → Nat) (len : Nat) :
    sbdsp_t × (Int → Nat) × Nat :=
  let level := sbdsp_fifo_level s
  if level = 0 then (s, buffer, 0)
  else if len = 0 then (s, buffer, 0)
  else
    let len := if len > level then level else len
    if s.dma_buffer_head < s.dma_buffer_tail ∨ s.dma_buffer_head + len < DSP_DMA_FIFO_SIZE then
      ({ s with dma_buffer_head := (s.dma_buffer_head + len) % 65536 },
       memcpy buffer 0 s.dma_buffer s.dma_buffer_head len,
       len)
    else
      let b1 := memcpy buffer 0 s.dma_buffer s.dma_buffer_head
        (DSP_DMA_FIFO_SIZE - s.dma_buffer_head)
      let b2 := memcpy b1 (256 - (s.dma_buffer_head : Int)) s.dma_buffer 0
        (len - (DSP_DMA_FIFO_SIZE - s.dma_buffer_head))
      ({ s with dma_buffer_head := (65536 + s.dma_buffer_head + len - DSP_DMA_FIFO_SIZE) % 65536 },
       b2,
       len)

/-! ## DMA pacing loop -/

/-- `sbdsp_dma_disable`. -/
def sbdsp_dma_disable (s : sbdsp_t) : sbdsp_t :=
  PIC_RemoveEvents { s with dma_enabled := false }

/-- `sbdsp_dma_enable`. -/
def sbdsp_dma_enable (s : sbdsp_t) : sbdsp_t :=
  if !s.dma_enabled then
    let s1 := sbdsp_fifo_clear s
    let s2 : sbdsp_t := { s1 with dma_enabled := true }
    PIC_AddEvent s2.dma_interval s2
  else s

/-- `DSP_DMA_Event`; `DMA_Start_Write` is counted. -/
def DSP_DMA_Event (s : sbdsp_t) : sbdsp_t :=
  let s1 : sbdsp_t :=
    if sbdsp_fifo_half s then { s with dma_interval_trim := 5 }
    else { s with dma_interval_trim := -5 }
  { s1 with dma_started := s1.dma_started + 1 }

/-- `sbdsp_dma_isr`; `dma_data` is the value returned by `DMA_Complete_Write`. -/
def sbdsp_dma_isr (dma_data : Nat) (s : sbdsp_t) : sbdsp_t :=
  let s1 := sbdsp_fifo_rx (dma_data % 256) s
  let s2 : sbdsp_t := { s1 with dma_sample_count_rx := (s1.dma_sample_count_rx + 1) % 4294967296 }
  if s2.dma_sample_count_rx ≤ s2.dma_sample_count then
    PIC_AddEvent ((s2.dma_interval : Int) + s2.dma_interval_trim) s2
  else
    let s3 : sbdsp_t :=
      if s2.autoinit then
        let s2a : sbdsp_t := { s2 with dma_sample_count_rx := 0 }
        PIC_AddEvent ((s2a.dma_interval : Int) + s2a.dma_interval_trim) s2a
      else sbdsp_dma_disable s2
    PIC_ActivateIRQ s3

/-! ## Command protocol -/

/-- `sbdsp_output`; the argument is converted to `uint8_t`. -/
def sbdsp_output (value : Nat) (s : sbdsp_t) : sbdsp_t :=
  { s with outbox := value % 256, dav_pc := true }

/-- The C expression `~x` for a byte `x` promoted to a 32-bit `int`, as a bit
pattern: all 32 bits flipped. -/
def bitnot32 (x : Nat) : Nat := 4294967295 - x

/-- `sbdsp_process`: one protocol step.  The `switch` is written as a chain of
tests in the order of the `case` labels.  In Set Time Constant the arithmetic is
`unsigned long`; the product `sample_rate * 65535` of a 16-bit rate stays below
`2^32`, so it is the same on a 32-bit and on a 64-bit `unsigned long`.  A
division by a zero `sample_rate`, undefined in C, would give 0 here; lemma
`rate_arith` shows no byte leads there. -/
def sbdsp_process (s0 : sbdsp_t) : sbdsp_t :=
  if s0.reset_state ≠ 0 then s0
  else
    let s1 : sbdsp_t := { s0 with dsp_busy := true }
    let s : sbdsp_t :=
      if s1.dav_dsp then
        if s1.current_command = 0 then
          { s1 with current_command := s1.inbox, current_command_index := 0, dav_dsp := false }
        else s1
      else s1
    let r : sbdsp_t :=
      if s.current_command = DSP_DMA_PAUSE then
        sbdsp_dma_disable { s with current_command := 0 }
      else if s.current_command = DSP_DMA_RESUME then
        sbdsp_dma_enable { s with current_command := 0 }
      else if s.current_command = DSP_DMA_AUTO then
        let t := sbdsp_dma_enable { s with autoinit := true, dma_sample_count := s.dma_block_size }
        { t with current_command := 0 }
      else if s.current_command = DSP_DMA_HS_AUTO then
        sbdsp_dma_enable
          { s with dav_dsp := false, current_command := 0, autoinit := true,
                   dma_sample_count := s.dma_block_size }
      else if s.current_command = DSP_SET_TIME_CONSTANT then
        if s.dav_dsp then
          let t : sbdsp_t :=
            if s.current_command_index = 1 then
              let time_constant := s.inbox
              let sample_rate := (1000000 / (256 - time_constant)) % 65536
              let dma_interval := (1000000 / sample_rate) % 65536
              let sample_step := (sample_rate * 65535 / OUTPUT_SAMPLERATE) % 4294967296
              let sample_factor := (OUTPUT_SAMPLERATE / sample_rate + 5) % 256
              { s with time_constant := time_constant, sample_rate := sample_rate,
                       dma_interval := dma_interval, sample_step := sample_step,
                       sample_factor := sample_factor, dav_dsp := false,
                       current_command := 0 }
            else s
          { t with current_command_index := (t.current_command_index + 1) % 256 }
        else s
      else if s.current_command = DSP_DMA_BLOCK_SIZE then
        if s.dav_dsp then
          let t : sbdsp_t :=
            if s.current_command_index = 1 then
              { s with dma_block_size := s.inbox, dav_dsp := false }
            else if s.current_command_index = 2 then
              { s with dma_block_size := (s.dma_block_size + s.inbox * 256) % 65536,
                       dav_dsp := false, current_command := 0 }
            else s
          { t with current_command_index := (t.current_command_index + 1) % 256 }
        else s
      else if s.current_command = DSP_DMA_HS_SINGLE then
        sbdsp_dma_enable
          { s with dav_dsp := false, current_command := 0, autoinit := false,
                   dma_sample_count := s.dma_block_size }
      else if s.current_command = DSP_DMA_SINGLE then
        if s.dav_dsp then
          let t : sbdsp_t :=
            if s.current_command_index = 1 then
              { s with dma_sample_count := s.inbox, dav_dsp := false }
            else if s.current_command_index = 2 then
              sbdsp_dma_enable
                { s with dma_sample_count := (s.dma_sample_count + s.inbox * 256) % 4294967296,
                         dma_sample_count_rx := 0, dav_dsp := false, current_command := 0,
                         autoinit := false }
            else s
          { t with current_command_index := (t.current_command_index + 1) % 256 }
        else s
      else if s.current_command = DSP_IRQ then
        PIC_ActivateIRQ { s with current_command := 0 }
      else if s.current_command = DSP_VERSION then
        if s.current_command_index = 0 then
          sbdsp_output DSP_VERSION_MAJOR { s with current_command_index := 1 }
        else if !s.dav_pc then
          sbdsp_output DSP_VERSION_MINOR { s with current_command := 0 }
        else s
      else if s.current_command = DSP_IDENT then
        if s.dav_dsp then
          let t : sbdsp_t :=
            if s.current_command_index = 1 then
              sbdsp_output (bitnot32 s.inbox) { s with dav_dsp := false, current_command := 0 }
            else s
          { t with current_command_index := (t.current_command_index + 1) % 256 }
        else s
      else if s.current_command = DSP_ENABLE_SPEAKER then
        { s with current_command := 0 }
      else if s.current_command = DSP_DISABLE_SPEAKER then
        { s with current_command := 0 }
      else if s.current_command = DSP_WRITETEST then
        if s.dav_dsp then
          let t : sbdsp_t :=
            if s.current_command_index = 1 then
              { s with test_register := s.inbox, dav_dsp := false, current_command := 0 }
            else s
          { t with current_command_index := (t.current_command_index + 1) % 256 }
        else s
      else if s.current_command = DSP_READTEST then
        if s.current_command_index = 0 then
          sbdsp_output s.test_register { s with current_command := 0 }
        else s
      else if s.current_command = 0 then s
      else { s with current_command := 0 }
    { r with dsp_busy := false }

/-- `sbdsp_reset`. -/
def sbdsp_reset (value : Nat) (s : sbdsp_t) : sbdsp_t :=
  if value = 1 then
    { s with autoinit := false, dma_enabled := false, reset_state := 1 }
  else if value = 0 then
    if s.reset_state = 0 then s
    else if s.reset_state = 1 then
      { s with reset_state := 0, outbox := 0xAA, dav_pc := true, current_command := 0,
               current_command_index := 0, dma_block_size := 0x7FF, dma_sample_count := 0,
               dma_sample_count_rx := 0 }
    else s
  else s

/-- `sbdsp_read`: the byte returned and the new state. -/
def sbdsp_read (address : Nat) (s : sbdsp_t) : Nat × sbdsp_t :=
  if address = DSP_READ then (s.outbox, { s with dav_pc := false })
  else if address = DSP_READ_STATUS then
    (((if s.dav_pc then 1 else 0) * 128) % 256, PIC_DeActivateIRQ s)
  else if address = DSP_WRITE_STATUS then
    (((if s.dav_dsp || s.dsp_busy then 1 else 0) * 128) % 256, s)
  else (0xFF, s)

/-- `sbdsp_write`. -/
def sbdsp_write (address value : Nat) (s : sbdsp_t) : sbdsp_t :=
  if address = DSP_WRITE then
    let s1 : sbdsp_t :=
      if s.dav_dsp then { s with overwrite_warnings := s.overwrite_warnings + 1 } else s
    { s1 with inbox := value, dav_dsp := true }
  else if address = DSP_RESET then sbdsp_reset value s
  else s

/-! ## Drivers: the callers' loops -/

/-- The poll path calling `sbdsp_process` `n` times in a row. -/
def steps : Nat → sbdsp_t → sbdsp_t
  | 0, s => s
  | n + 1, s => steps n (sbdsp_process s)

/-- The interrupt path pushing the bytes `bytes 0`, ..., `bytes (n-1)` in this
order with `sbdsp_fifo_rx`. -/
def fifo_push_seq (bytes : Nat → Nat) : Nat → sbdsp_t → sbdsp_t
  | 0, s => s
  | n + 1, s => sbdsp_fifo_rx (bytes n) (fifo_push_seq bytes n s)

/-- One FIFO operation of a producer/consumer schedule. -/
inductive fifo_op where
  | push (byte : Nat)
  | pop (max_len : Nat)

/-- A FIFO together with the number of bytes pushed and the number of bytes
popped so far. -/
structure fifo_trace where
  dev : sbdsp_t
  pushed : Nat
  popped : Nat

/-- Apply one FIFO operation, counting the bytes that went in and out; the
popped bytes go to a scratch buffer. -/
def fifo_apply (op : fifo_op) (t : fifo_trace) : fifo_trace :=
  match op with
  | fifo_op.push b => { dev := sbdsp_fifo_rx b t.dev, pushed := t.pushed + 1, popped := t.popped }
  | fifo_op.pop n =>
    let r := sbdsp_fifo_tx t.dev (fun _ => 0) n
    { dev := r.1, pushed := t.pushed, popped := t.popped + r.2.2 }

/-- The first `n` operations `ops 0`, ..., `ops (n-1)` of a schedule. -/
def fifo_run (ops : Nat → fifo_op) : Nat → fifo_trace → fifo_trace
  | 0, t => t
  | n + 1, t => fifo_apply (ops n) (fifo_run ops n t)

/-- The host sending bytes through the write port: each entry `(b, k)` is one
write of `b` followed by `k` protocol steps of the poll path. -/
def host_send : List (Nat × Nat) → sbdsp_t → sbdsp_t
  | [], s => s
  | (b, k) :: rest, s => host_send rest (steps k (sbdsp_write DSP_WRITE b s))

/-- The pacing the host has to keep: after each write, the protocol steps that
follow it have cleared `dav_dsp` before the next byte is written (and before the
session ends). -/
def host_paced : List (Nat × Nat) → sbdsp_t → Bool
  | [], _ => true
  | (b, k) :: rest, s =>
    (steps k (sbdsp_write DSP_WRITE b s)).dav_dsp == false &&
      host_paced rest (steps k (sbdsp_write DSP_WRITE b s))

/-- One pacing cycle of the interrupt path: the scheduler fires `DSP_DMA_Event`,
which starts a transfer, and the transfer's completion calls `sbdsp_dma_isr`
with the byte `data k`; `dma_run data n` is `n` such cycles in a row. -/
def dma_run (data : Nat → Nat) : Nat → sbdsp_t → sbdsp_t
  | 0, s => s
  | n + 1, s => sbdsp_dma_isr (data n) (DSP_DMA_Event (dma_run data n s))

/-! ## Resampler and mixer -/

/-- The `audio_buffer_t` handed to `sbdsp_mix`: its two counters and the sample
memory `buffer->buffer->bytes` seen as `int16_t` cells. -/
structure audio_buffer_t where
  sample_count : Nat
  max_sample_count : Nat
  samples : Nat → Int

/-- Conversion of an `int` to `int16_t`: two's complement wrap-around. -/
def to_int16 (v : Int) : Int := (v + 32768) % 65536 - 32768

/-- The value of a `char` that holds the byte `b`, on a platform whose `char`
is signed (`char_signed = true`) or unsigned. -/
def char_value (char_signed : Bool) (b : Nat) : Int :=
  if char_signed = true ∧ 128 ≤ b then (b : Int) - 256 else (b : Int)

/-- The expression `buf[y]-0x80 << 8` (the subtraction binds tighter than the
shift; the shift of an `int` by 8 is the multiplication by 256) stored to an
`int16_t` cell. -/
def pcm_sample (char_signed : Bool) (b : Nat) : Int :=
  to_int16 ((char_value char_signed b - 128) * 256)

/-- The expression `y=(sbdsp.sample_offset >> 16) - starting_offset`: a 64-bit
unsigned subtraction stored to the `uint16_t` variable `y`. -/
def mix_index (sample_offset starting_offset : Nat) : Nat :=
  ((sample_offset / 65536 + 18446744073709551616 - starting_offset)
    % 18446744073709551616) % 65536

/-- The `for` loop of `sbdsp_mix` with `n` values of `i` left before `i` reaches
`x * sample_factor`: the final `i`, the final `sample_offset` and the sample
memory.  `sample_offset += sample_step` is a 64-bit addition. -/
def mix_loop (char_signed : Bool) (buf : Int → Nat) (x sample_step starting_offset : Nat) :
    Nat → Nat → Nat → (Nat → Int) → Nat × Nat × (Nat → Int)
  | 0, i, sample_offset, samples => (i, sample_offset, samples)
  | n + 1, i, sample_offset, samples =>
    let y := mix_index sample_offset starting_offset
    if y ≥ x then (i, sample_offset, samples)
    else
      let samples1 : Nat → Int :=
        fun k => if k = 2 * i + 0 then pcm_sample char_signed (buf (y : Int)) else samples k
      let samples2 : Nat → Int :=
        fun k => if k = 2 * i + 1 then pcm_sample char_signed (buf (y : Int)) else samples1 k
      mix_loop char_signed buf x sample_step starting_offset n (i + 1)
        ((sample_offset + sample_step) % 18446744073709551616) samples2

/-- The pull and the `for` loop of `sbdsp_mix`: `x = sbdsp_fifo_tx(buf,4)`,
`starting_offset = sbdsp.sample_offset >> 16`, then the loop from `i = 0` with
the bound `x * sbdsp.sample_factor`.  `stack` is the memory at the local array
`buf` when the function is entered. -/
def mix_resample (char_signed : Bool) (stack : Int → Nat) (buffer : audio_buffer_t)
    (s : sbdsp_t) : Nat × Nat × (Nat → Int) :=
  let r := sbdsp_fifo_tx s stack 4
  let s1 : sbdsp_t := r.1
  let buf : Int → Nat := r.2.1
  let x : Nat := r.2.2
  let starting_offset := s1.sample_offset / 65536
  mix_loop char_signed buf x s1.sample_step starting_offset
    (x * s1.sample_factor) 0 s1.sample_offset buffer.samples

/-- The first part of `sbdsp_mix`, up to and including the silence fallback
(`if(!buffer->sample_count)`): the new device state and the frame that holds
the DSP's own samples.  The wait `while(!sbdsp_fifo_level())` has an empty body:
entered with an empty FIFO and no interrupt in between, it never ends, and the
function returns nothing (`none`). -/
def sbdsp_mix_dsp (char_signed : Bool) (stack : Int → Nat) (buffer : audio_buffer_t)
    (s : sbdsp_t) : Option (sbdsp_t × audio_buffer_t) :=
  let b0 : audio_buffer_t := { buffer with sample_count := 0 }
  let filled : Option (sbdsp_t × audio_buffer_t) :=
    if s.dma_enabled then
      if sbdsp_fifo_level s = 0 then none
      else
        let s1 : sbdsp_t := (sbdsp_fifo_tx s stack 4).1
        let l := mix_resample char_signed stack b0 s
        some ({ s1 with sample_offset := l.2.1 },
              { b0 with sample_count := l.1, max_sample_count := l.1, samples := l.2.2 })
    else some (s, b0)
  match filled with
  | none => none
  | some (s2, b1) =>
    if b1.sample_count = 0 then
      some (s2, { b1 with sample_count := 1,
                          samples := fun k => if k < 1 * 2 then 0 else b1.samples k })
    else some (s2, b1)

/-- The function `sbdsp_mix`: the DSP part, then the secondary source's samples
added cell by cell in `int16_t`.  `OPL_Pico_Mix_callback n` stands for what the
external callback leaves in `opl_buffer` when asked for `n` samples. -/
def sbdsp_mix (char_signed : Bool) (stack : Int → Nat)
    (OPL_Pico_Mix_callback : Nat → Nat → Int) (buffer : audio_buffer_t) (s : sbdsp_t) :
    Option (sbdsp_t × audio_buffer_t) :=
  match sbdsp_mix_dsp char_signed stack buffer s with
  | none => none
  | some (s1, b) =>
    let opl_samples := OPL_Pico_Mix_callback b.sample_count
    some (s1, { b with samples := fun k =>
      if k < b.sample_count * 2 then to_int16 (b.samples k + opl_samples k) else b.samples k })

/-- The value of `sample_offset` after `j` executions of
`sbdsp.sample_offset += sbdsp.sample_step` (64-bit additions) from `off`. -/
def mix_offset (sample_step : Nat) : Nat → Nat → Nat
  | 0, off => off
  | j + 1, off => mix_offset sample_step j ((off + sample_step) % 18446744073709551616)

/-! ## Sample states used to evaluate the code -/

/-- A FIFO holding four bytes across the end of the ring: `head = 1022`,
`tail = 2`, slot `i` holding `i % 251`, so the buffered bytes are
`18, 19, 0, 1` from oldest to newest. -/
def wrap_dev : sbdsp_t :=
  { sbdsp_zero with dma_buffer := fun i => i % 251,
                    dma_buffer_head := 1022, dma_buffer_tail := 2 }

/-- A FIFO holding 1023 bytes from `head = 256` round to `tail = 255`, slot `i`
holding `i % 251`; the oldest byte is `ring[256] = 5`. -/
def wrap_dev_full : sbdsp_t :=
  { sbdsp_zero with dma_buffer := fun i => i % 251,
                    dma_buffer_head := 256, dma_buffer_tail := 255 }

/-- Caller memory filled with the byte `0xEE`. -/
def mem_ee : Int → Nat := fun _ => 0xEE

/-- An empty FIFO whose indices stand at 1020, four places before the end of
the ring. -/
def empty_dev : sbdsp_t :=
  { sbdsp_zero with dma_buffer_head := 1020, dma_buffer_tail := 1020 }

/-- A schedule: six pushes (bytes 0..5), then a pop of up to four bytes, then
pushes again. -/
def sample_ops : Nat → fifo_op :=
  fun k => if k = 6 then fifo_op.pop 4 else fifo_op.push (k % 256)

/-- A device inside Set Time Constant with the parameter byte 0xFF pending and
the index at 1. -/
def tc_pending_dev : sbdsp_t :=
  { sbdsp_zero with current_command := 0x40, current_command_index := 1,
                    dav_dsp := true, inbox := 0xFF }

/-- The zero-initialised device after the step that latched opcode 0x48. -/
def latched_48_dev : sbdsp_t :=
  { sbdsp_zero with inbox := 0x48, current_command := 0x48 }

/-- The zero-initialised device after a reset (1 then 0 written to the reset
port), the command DMA Single with the bytes `[0x02, 0x00]`, and three pacing
cycles that each deliver the byte 0x80. -/
def single_done_dev : sbdsp_t :=
  dma_run (fun _ => 0x80) 3
    (host_send [(0x14, 1), (0x02, 2), (0x00, 1)]
      (sbdsp_write DSP_RESET 0 (sbdsp_write DSP_RESET 1 sbdsp_zero)))

/-- A frame whose sample memory is all zero. -/
def frame_zero : audio_buffer_t :=
  { sample_count := 0, max_sample_count := 0, samples := fun _ => 0 }

/-- A secondary source that delivers 1000 on the left and -2000 on the right. -/
def opl_sample : Nat → Nat → Int :=
  fun _ k => if k % 2 = 0 then 1000 else -2000

/-- The wrapped FIFO of `wrap_dev` with pacing enabled and `sample_factor = 0`
(no time constant was ever set). -/
def playing_dev_no_factor : sbdsp_t :=
  { wrap_dev with dma_enabled := true }

/-- The wrapped FIFO of `wrap_dev` with pacing enabled and the rate fields that
Set Time Constant stores for the byte 0xD4 (22727 Hz). -/
def playing_dev : sbdsp_t :=
  { wrap_dev with dma_enabled := true, time_constant := 0xD4, sample_rate := 22727,
                  dma_interval := 44, sample_step := 29958, sample_factor := 7 }

/-- Caller memory filled with the byte `0x11`. -/
def mem_11 : Int → Nat := fun _ => 0x11

/-- The zero-initialised device after a reset (1 then 0 written to the reset
port), the command DMA Auto (0x1C), five pacing cycles that each deliver the
byte 0x80, the command DMA Pause (0xD0) and Set Block Size with the bytes
`[0x01, 0x00]`. -/
def paused_block_dev : sbdsp_t :=
  host_send [(0xD0, 1), (0x48, 1), (0x01, 2), (0x00, 1)]
    (dma_run (fun _ => 0x80) 5
      (host_send [(0x1C, 1)]
        (sbdsp_write DSP_RESET 0 (sbdsp_write DSP_RESET 1 sbdsp_zero))))

/-- The device of `paused_block_dev` after the command DMA High-Speed Single
(0x91). -/
def stale_counter_dev : sbdsp_t :=
  host_send [(0x91, 1)] paused_block_dev

/-! ## FIFO lemmas -/

theorem fifo_rx_head (b : Nat) (s : sbdsp_t) :
    (sbdsp_fifo_rx b s).dma_buffer_head = s.dma_buffer_head := by
  unfold sbdsp_fifo_rx
  simp only []
  split_ifs <;> rfl

theorem fifo_rx_tail (b : Nat) (s : sbdsp_t) (ht : s.dma_buffer_tail < 1024) :
    (sbdsp_fifo_rx b s).dma_buffer_tail = (s.dma_buffer_tail + 1) % 1024 := by
  unfold sbdsp_fifo_rx
  simp only [DSP_DMA_FIFO_SIZE]
  split_ifs <;> simp_all <;> omega

theorem fifo_rx_overrun (b : Nat) (s : sbdsp_t) :
    (sbdsp_fifo_rx b s).overrun_reports
      = s.overrun_reports + (if sbdsp_fifo_level s + 1 = 1024 then 1 else 0) := by
  unfold sbdsp_fifo_rx
  simp only [DSP_DMA_FIFO_SIZE]
  split_ifs <;> simp_all

theorem fifo_rx_buffer (b : Nat) (s : sbdsp_t) (i : Nat) :
    (sbdsp_fifo_rx b s).dma_buffer i
      = if i = s.dma_buffer_tail then b else s.dma_buffer i := by
  unfold sbdsp_fifo_rx
  simp only [DSP_DMA_FIFO_SIZE]
  split_ifs <;> simp_all

theorem fifo_level_eq (s : sbdsp_t) (hh : s.dma_buffer_head < 1024)
    (ht : s.dma_buffer_tail < 1024) :
    sbdsp_fifo_level s = (s.dma_buffer_tail + 1024 - s.dma_buffer_head) % 1024 := by
  unfold sbdsp_fifo_level
  simp only [DSP_DMA_FIFO_SIZE]
  split_ifs <;> omega

theorem fifo_tx_count (s : sbdsp_t) (buf : Int → Nat) (len : Nat) :
    (sbdsp_fifo_tx s buf len).2.2 = min (sbdsp_fifo_level s) len := by
  unfold sbdsp_fifo_tx
  simp only []
  split_ifs <;> simp_all <;> omega

theorem fifo_tx_tail (s : sbdsp_t) (buf : Int → Nat) (len : Nat) :
    (sbdsp_fifo_tx s buf len).1.dma_buffer_tail = s.dma_buffer_tail := by
  unfold sbdsp_fifo_tx
  simp only []
  split_ifs <;> rfl

theorem fifo_tx_head (s : sbdsp_t) (buf : Int → Nat) (len : Nat)
    (hh : s.dma_buffer_head < 1024) (ht : s.dma_buffer_tail < 1024) :
    (sbdsp_fifo_tx s buf len).1.dma_buffer_head
      = (s.dma_buffer_head + min (sbdsp_fifo_level s) len) % 1024 := by
  have hl := fifo_level_eq s hh ht
  unfold sbdsp_fifo_tx
  simp only [DSP_DMA_FIFO_SIZE]
  split_ifs <;> simp_all <;> omega

theorem fifo_tx_level (s : sbdsp_t) (buf : Int → Nat) (len : Nat)
    (hh : s.dma_buffer_head < 1024) (ht : s.dma_buffer_tail < 1024) :
    sbdsp_fifo_level (sbdsp_fifo_tx s buf len).1
      = sbdsp_fifo_level s - min (sbdsp_fifo_level s) len := by
  have h1 := fifo_tx_head s buf len hh ht
  have h2 := fifo_tx_tail s buf len
  have h3 : (sbdsp_fifo_tx s buf len).1.dma_buffer_head < 1024 := by
    rw [h1]; exact Nat.mod_lt _ (by norm_num)
  rw [fifo_level_eq _ h3 (by rw [h2]; exact ht), fifo_level_eq s hh ht, h1, h2]
  rw [fifo_level_eq s hh ht]
  omega

theorem fifo_rx_level (b : Nat) (s : sbdsp_t)
    (hh : s.dma_buffer_head < 1024) (ht : s.dma_buffer_tail < 1024) :
    sbdsp_fifo_level (sbdsp_fifo_rx b s) = (sbdsp_fifo_level s + 1) % 1024 := by
  have h1 := fifo_rx_head b s
  have h2 := fifo_rx_tail b s ht
  have h3 : (sbdsp_fifo_rx b s).dma_buffer_tail < 1024 := by
    rw [h2]; exact Nat.mod_lt _ (by norm_num)
  rw [fifo_level_eq _ (by rw [h1]; exact hh) h3, fifo_level_eq s hh ht, h1, h2]
  omega

theorem memcpy_inside (mem : Int → Nat) (dst : Int) (src : Nat → Nat) (start n : Nat) (a : Int)
    (h1 : dst ≤ a) (h2 : a < dst + (n : Int)) :
    memcpy mem dst src start n a = src (start + (a - dst).toNat) := by
  unfold memcpy
  rw [if_pos ⟨h1, h2⟩]

theorem memcpy_outside (mem : Int → Nat) (dst : Int) (src : Nat → Nat) (start n : Nat) (a : Int)
    (h : a < dst ∨ dst + (n : Int) ≤ a) :
    memcpy mem dst src start n a = mem a := by
  unfold memcpy
  rw [if_neg (by omega)]

/-- The caller's memory after `sbdsp_fifo_tx`, with `n = min level len` bytes to
deliver. -/
theorem fifo_tx_memory (s : sbdsp_t) (buf : Int → Nat) (len : Nat) :
    (sbdsp_fifo_tx s buf len).2.1 =
      if min (sbdsp_fifo_level s) len = 0 then buf
      else if s.dma_buffer_head < s.dma_buffer_tail ∨
          s.dma_buffer_head + min (sbdsp_fifo_level s) len < 1024 then
        memcpy buf 0 s.dma_buffer s.dma_buffer_head (min (sbdsp_fifo_level s) len)
      else
        memcpy (memcpy buf 0 s.dma_buffer s.dma_buffer_head (1024 - s.dma_buffer_head))
          (256 - (s.dma_buffer_head : Int)) s.dma_buffer 0
          (min (sbdsp_fifo_level s) len - (1024 - s.dma_buffer_head)) := by
  have hm : (if len > sbdsp_fifo_level s then sbdsp_fifo_level s else len)
      = min (sbdsp_fifo_level s) len := by
    split_ifs <;> omega
  unfold sbdsp_fifo_tx
  simp only [DSP_DMA_FIFO_SIZE, hm]
  by_cases h0 : sbdsp_fifo_level s = 0
  · simp [h0]
  · by_cases h1 : len = 0
    · simp [h0, h1]
    · have h2 : min (sbdsp_fifo_level s) len ≠ 0 := by omega
      rw [if_neg h0, if_neg h1, if_neg h2]
      split_ifs <;> rfl

/-- Where the buffered range does not run past the end of the ring (or ends
exactly at it), `sbdsp_fifo_tx` delivers the oldest bytes in order and leaves
the rest of the caller's memory alone. -/
theorem fifo_tx_contiguous (s : sbdsp_t) (buf : Int → Nat) (len : Nat)
    (hh : s.dma_buffer_head < 1024)
    (hfit : s.dma_buffer_head + min (sbdsp_fifo_level s) len ≤ 1024) :
    (∀ k : Nat, k < min (sbdsp_fifo_level s) len →
        (sbdsp_fifo_tx s buf len).2.1 (k : Int) = s.dma_buffer ((s.dma_buffer_head + k) % 1024)) ∧
    (∀ a : Int, (a < 0 ∨ ((min (sbdsp_fifo_level s) len : Nat) : Int) ≤ a) →
        (sbdsp_fifo_tx s buf len).2.1 a = buf a) := by
  rw [fifo_tx_memory]
  generalize min (sbdsp_fifo_level s) len = n at hfit ⊢
  constructor
  · intro k hk
    have hmod : (s.dma_buffer_head + k) % 1024 = s.dma_buffer_head + k :=
      Nat.mod_eq_of_lt (by omega)
    rw [hmod, if_neg (by omega)]
    split_ifs with hc
    · rw [memcpy_inside _ _ _ _ _ _ (by omega) (by omega)]
      simp
    · rw [memcpy_outside _ _ _ _ _ _ (by omega), memcpy_inside _ _ _ _ _ _ (by omega) (by omega)]
      simp
  · intro a ha
    split_ifs with h0 hc
    · rfl
    · exact memcpy_outside _ _ _ _ _ _ (by omega)
    · rw [memcpy_outside _ _ _ _ _ _ (by omega), memcpy_outside _ _ _ _ _ _ (by omega)]

/-- After `n` pushes into a FIFO whose tail is in range: the head has not moved,
the tail has advanced `n` places round the ring. -/
theorem fifo_push_seq_indices (bytes : Nat → Nat) (s : sbdsp_t)
    (ht : s.dma_buffer_tail < 1024) (n : Nat) :
    (fifo_push_seq bytes n s).dma_buffer_head = s.dma_buffer_head ∧
    (fifo_push_seq bytes n s).dma_buffer_tail = (s.dma_buffer_tail + n) % 1024 := by
  induction n with
  | zero => exact ⟨rfl, (Nat.mod_eq_of_lt ht).symm⟩
  | succ n ih =>
    have h3 : (fifo_push_seq bytes n s).dma_buffer_tail < 1024 := by
      rw [ih.2]; exact Nat.mod_lt _ (by norm_num)
    refine ⟨?_, ?_⟩
    · show (sbdsp_fifo_rx _ _).dma_buffer_head = _
      rw [fifo_rx_head, ih.1]
    · show (sbdsp_fifo_rx _ _).dma_buffer_tail = _
      rw [fifo_rx_tail _ _ h3, ih.2]
      omega

/-- Pushing into an initially empty FIFO: the `n` pushes made so far have
reported `n / 1024` overruns. -/
theorem fifo_push_seq_overrun (bytes : Nat → Nat) (s : sbdsp_t)
    (ht : s.dma_buffer_tail < 1024) (he : s.dma_buffer_head = s.dma_buffer_tail) (n : Nat) :
    (fifo_push_seq bytes n s).overrun_reports = s.overrun_reports + n / 1024 := by
  induction n with
  | zero => simp [fifo_push_seq]
  | succ n ih =>
    have hi := fifo_push_seq_indices bytes s ht n
    have h3 : (fifo_push_seq bytes n s).dma_buffer_tail < 1024 := by
      rw [hi.2]; exact Nat.mod_lt _ (by norm_num)
    have hl := fifo_level_eq (fifo_push_seq bytes n s) (by rw [hi.1, he]; exact ht) h3
    show (sbdsp_fifo_rx _ _).overrun_reports = _
    rw [fifo_rx_overrun, ih, hl, hi.1, hi.2, he]
    split_ifs <;> omega

/-- A byte pushed within the last 1024 pushes is still in the slot it was
written to. -/
theorem fifo_push_seq_buffer (bytes : Nat → Nat) (s : sbdsp_t)
    (ht : s.dma_buffer_tail < 1024) (n : Nat) :
    ∀ k, k < n → n ≤ k + 1024 →
      (fifo_push_seq bytes n s).dma_buffer ((s.dma_buffer_tail + k) % 1024) = bytes k := by
  induction n with
  | zero => intro k hk; omega
  | succ n ih =>
    intro k hk hk2
    have hi := fifo_push_seq_indices bytes s ht n
    show (sbdsp_fifo_rx _ _).dma_buffer _ = _
    rw [fifo_rx_buffer, hi.2]
    by_cases hkn : k = n
    · subst hkn; simp
    · have hne : (s.dma_buffer_tail + k) % 1024 ≠ (s.dma_buffer_tail + n) % 1024 := by omega
      rw [if_neg hne]
      exact ih k (by omega) (by omega)

/-- The accounting invariant of a producer/consumer schedule that starts from an
empty FIFO and never holds 1024 bytes or more. -/
theorem fifo_run_invariant (ops : Nat → fifo_op) (s : sbdsp_t)
    (ht : s.dma_buffer_tail < 1024) (he : s.dma_buffer_head = s.dma_buffer_tail) (n : Nat)
    (hb : ∀ k, k ≤ n →
      (fifo_run ops k ⟨s, 0, 0⟩).pushed - (fifo_run ops k ⟨s, 0, 0⟩).popped < 1024) :
    (fifo_run ops n ⟨s, 0, 0⟩).dev.dma_buffer_head < 1024 ∧
    (fifo_run ops n ⟨s, 0, 0⟩).dev.dma_buffer_tail < 1024 ∧
    sbdsp_fifo_level (fifo_run ops n ⟨s, 0, 0⟩).dev
      = (fifo_run ops n ⟨s, 0, 0⟩).pushed - (fifo_run ops n ⟨s, 0, 0⟩).popped ∧
    (fifo_run ops n ⟨s, 0, 0⟩).popped ≤ (fifo_run ops n ⟨s, 0, 0⟩).pushed := by
  induction n with
  | zero =>
    have hl := fifo_level_eq s (by rw [he]; exact ht) ht
    refine ⟨by show s.dma_buffer_head < 1024; omega, ht, ?_, le_refl _⟩
    show sbdsp_fifo_level s = 0 - 0
    rw [hl, he]; omega
  | succ n ih =>
    obtain ⟨i1, i2, i3, i4⟩ := ih (fun k hk => hb k (by omega))
    have hn := hb (n + 1) (le_refl _)
    have hstep : fifo_run ops (n + 1) ⟨s, 0, 0⟩ = fifo_apply (ops n) (fifo_run ops n ⟨s, 0, 0⟩) := rfl
    rw [hstep] at hn ⊢
    generalize fifo_run ops n ⟨s, 0, 0⟩ = t at i1 i2 i3 i4 hn ⊢
    cases hop : ops n with
    | push b =>
      rw [hop] at hn
      simp only [fifo_apply] at hn ⊢
      refine ⟨by rw [fifo_rx_head]; exact i1, ?_, ?_, by omega⟩
      · rw [fifo_rx_tail _ _ i2]; exact Nat.mod_lt _ (by norm_num)
      · rw [fifo_rx_level _ _ i1 i2, i3]; omega
    | pop m =>
      rw [hop] at hn
      simp only [fifo_apply] at hn ⊢
      have hc := fifo_tx_count t.dev (fun _ => 0) m
      refine ⟨?_, by rw [fifo_tx_tail]; exact i2, ?_, ?_⟩
      · rw [fifo_tx_head _ _ _ i1 i2]; exact Nat.mod_lt _ (by norm_num)
      · rw [fifo_tx_level _ _ _ i1 i2, hc, i3]; omega
      · rw [hc, i3]; omega

/-! ## Protocol step lemmas -/

theorem steps_succ (k : Nat) (s : sbdsp_t) : steps (k + 1) s = steps k (sbdsp_process s) := rfl

theorem steps_fixed (s : sbdsp_t) (h : sbdsp_process s = s) (k : Nat) : steps k s = s := by
  induction k with
  | zero => rfl
  | succ k ih => rw [steps_succ, h, ih]

/-- A byte that one step consumes: whenever `dav_dsp` is found clear after some
number of steps, the state is the one reached by the first step. -/
theorem steps_consume_one (w w1 : sbdsp_t) (hw : w.dav_dsp = true)
    (h1 : sbdsp_process w = w1) (hfix : sbdsp_process w1 = w1)
    (k : Nat) (hk : (steps k w).dav_dsp = false) : steps k w = w1 := by
  cases k with
  | zero => simp [steps, hw] at hk
  | succ k => rw [steps_succ, h1, steps_fixed w1 hfix]

/-- A byte that takes two steps to consume. -/
theorem steps_consume_two (w w1 w2 : sbdsp_t) (hw : w.dav_dsp = true)
    (h1 : sbdsp_process w = w1) (hw1 : w1.dav_dsp = true)
    (h2 : sbdsp_process w1 = w2) (hfix : sbdsp_process w2 = w2)
    (k : Nat) (hk : (steps k w).dav_dsp = false) : steps k w = w2 := by
  cases k with
  | zero => simp [steps, hw] at hk
  | succ k =>
    rw [steps_succ, h1] at hk ⊢
    exact steps_consume_one w1 w2 hw1 h2 hfix k hk

/-- The step that latches the opcode of a command with parameters: only the
command, its index and the handshake flags change. -/
theorem process_latch_param (s : sbdsp_t) (c : Nat) (hr : s.reset_state = 0)
    (hc : s.current_command = 0) (hd : s.dav_dsp = true) (hi : s.inbox = c)
    (hp : c = 0x40 ∨ c = 0x48 ∨ c = 0x14 ∨ c = 0xE0 ∨ c = 0xE4) :
    sbdsp_process s = { s with current_command := c, current_command_index := 0,
                               dav_dsp := false, dsp_busy := false } := by
  rcases hp with h | h | h | h | h <;> subst h <;>
    simp [sbdsp_process, hr, hc, hd, hi, DSP_DMA_PAUSE, DSP_DMA_RESUME, DSP_DMA_AUTO,
      DSP_DMA_HS_AUTO, DSP_SET_TIME_CONSTANT, DSP_DMA_BLOCK_SIZE, DSP_DMA_HS_SINGLE,
      DSP_DMA_SINGLE, DSP_IRQ, DSP_VERSION, DSP_IDENT, DSP_ENABLE_SPEAKER,
      DSP_DISABLE_SPEAKER, DSP_WRITETEST, DSP_READTEST]

/-- A step with nothing to do (idle, or inside a command with parameters and no
byte pending) only clears the busy flag. -/
theorem process_waiting (s : sbdsp_t) (hr : s.reset_state = 0) (hd : s.dav_dsp = false)
    (hp : s.current_command = 0 ∨ s.current_command = 0x40 ∨ s.current_command = 0x48 ∨
      s.current_command = 0x14 ∨ s.current_command = 0xE0 ∨ s.current_command = 0xE4) :
    sbdsp_process s = { s with dsp_busy := false } := by
  rcases hp with h | h | h | h | h | h <;>
    simp [sbdsp_process, hr, hd, h, DSP_DMA_PAUSE, DSP_DMA_RESUME, DSP_DMA_AUTO,
      DSP_DMA_HS_AUTO, DSP_SET_TIME_CONSTANT, DSP_DMA_BLOCK_SIZE, DSP_DMA_HS_SINGLE,
      DSP_DMA_SINGLE, DSP_IRQ, DSP_VERSION, DSP_IDENT, DSP_ENABLE_SPEAKER,
      DSP_DISABLE_SPEAKER, DSP_WRITETEST, DSP_READTEST]

/-- The first step after the first parameter byte was written finds the index
at 0: it only moves the index to 1 and leaves the byte pending. -/
theorem process_param_index0 (s : sbdsp_t) (hr : s.reset_state = 0) (hd : s.dav_dsp = true)
    (hx : s.current_command_index = 0)
    (hp : s.current_command = 0x40 ∨ s.current_command = 0x48 ∨
      s.current_command = 0x14 ∨ s.current_command = 0xE0 ∨ s.current_command = 0xE4) :
    sbdsp_process s = { s with current_command_index := 1, dsp_busy := false } := by
  rcases hp with h | h | h | h | h <;>
    simp [sbdsp_process, hr, hd, hx, h, DSP_DMA_PAUSE, DSP_DMA_RESUME, DSP_DMA_AUTO,
      DSP_DMA_HS_AUTO, DSP_SET_TIME_CONSTANT, DSP_DMA_BLOCK_SIZE, DSP_DMA_HS_SINGLE,
      DSP_DMA_SINGLE, DSP_IRQ, DSP_VERSION, DSP_IDENT, DSP_ENABLE_SPEAKER,
      DSP_DISABLE_SPEAKER, DSP_WRITETEST, DSP_READTEST]

theorem process_fixed (s : sbdsp_t) (hr : s.reset_state = 0) (hd : s.dav_dsp = false)
    (hb : s.dsp_busy = false)
    (hp : s.current_command = 0 ∨ s.current_command = 0x40 ∨ s.current_command = 0x48 ∨
      s.current_command = 0x14 ∨ s.current_command = 0xE0 ∨ s.current_command = 0xE4) :
    sbdsp_process s = s := by
  rw [process_waiting s hr hd hp]
  cases s
  simp_all

/-- A write to the write port, in one piece. -/
theorem write_port_eq (b : Nat) (s : sbdsp_t) :
    sbdsp_write DSP_WRITE b s
      = { s with inbox := b, dav_dsp := true,
                 overwrite_warnings := s.overwrite_warnings + (if s.dav_dsp then 1 else 0) } := by
  unfold sbdsp_write
  cases h : s.dav_dsp <;> simp [h]

/-- The host writing the opcode of a command with parameters to an idle device:
once `dav_dsp` is found clear the command is latched with index 0. -/
theorem opcode_phase (s : sbdsp_t) (c k : Nat) (hr : s.reset_state = 0)
    (hc : s.current_command = 0)
    (hp : c = 0x40 ∨ c = 0x48 ∨ c = 0x14 ∨ c = 0xE0 ∨ c = 0xE4)
    (hk : (steps k (sbdsp_write DSP_WRITE c s)).dav_dsp = false) :
    steps k (sbdsp_write DSP_WRITE c s)
      = { s with inbox := c, current_command := c, current_command_index := 0,
                 dav_dsp := false, dsp_busy := false,
                 overwrite_warnings := s.overwrite_warnings + (if s.dav_dsp then 1 else 0) } := by
  rw [write_port_eq] at hk ⊢
  have h1 := process_latch_param
    { s with inbox := c, dav_dsp := true,
             overwrite_warnings := s.overwrite_warnings + (if s.dav_dsp then 1 else 0) } c
    hr hc rfl rfl hp
  refine steps_consume_one _ _ rfl h1 ?_ k hk
  exact process_fixed _ hr rfl rfl (by simp only []; omega)

/-- The first parameter byte of a command: the first step after the write only
moves the index to 1; once `dav_dsp` is found clear the state is the one the
second step produced. -/
theorem first_param_phase (w : sbdsp_t) (b k : Nat) (hr : w.reset_state = 0)
    (hd : w.dav_dsp = false) (hx : w.current_command_index = 0)
    (hp : w.current_command = 0x40 ∨ w.current_command = 0x48 ∨
      w.current_command = 0x14 ∨ w.current_command = 0xE0 ∨ w.current_command = 0xE4)
    (hfix : sbdsp_process (sbdsp_process
        { w with inbox := b, dav_dsp := true, current_command_index := 1, dsp_busy := false })
      = sbdsp_process
        { w with inbox := b, dav_dsp := true, current_command_index := 1, dsp_busy := false })
    (hk : (steps k (sbdsp_write DSP_WRITE b w)).dav_dsp = false) :
    steps k (sbdsp_write DSP_WRITE b w)
      = sbdsp_process
          { w with inbox := b, dav_dsp := true, current_command_index := 1, dsp_busy := false } := by
  rw [write_port_eq] at hk ⊢
  simp only [hd, Bool.false_eq_true, if_false, Nat.add_zero] at hk ⊢
  have h1 := process_param_index0 { w with inbox := b, dav_dsp := true } hr rfl hx hp
  exact steps_consume_two _ _ _ rfl h1 rfl rfl hfix k hk

/-- A session that sends a one-parameter command `c` and its parameter `b`: the
final state is the one produced by the step that finds `b` pending with the
index at 1. -/
theorem one_param_session (s : sbdsp_t) (c b k1 k2 : Nat) (hr : s.reset_state = 0)
    (hc : s.current_command = 0) (hp : c = 0x40 ∨ c = 0xE0 ∨ c = 0xE4)
    (hpace : host_paced [(c, k1), (b, k2)] s = true) :
    host_send [(c, k1), (b, k2)] s
      = sbdsp_process
          { s with inbox := b, dav_dsp := true, current_command := c,
                   current_command_index := 1, dsp_busy := false,
                   overwrite_warnings := s.overwrite_warnings + (if s.dav_dsp then 1 else 0) } := by
  simp only [host_paced, host_send, Bool.and_eq_true, beq_iff_eq, Bool.and_true] at hpace ⊢
  obtain ⟨h1, h2⟩ := hpace
  have e1 := opcode_phase s c k1 hr hc (by omega) h1
  rw [e1] at h2 ⊢
  have e2 := first_param_phase
    { s with inbox := c, current_command := c, current_command_index := 0,
             dav_dsp := false, dsp_busy := false,
             overwrite_warnings := s.overwrite_warnings + (if s.dav_dsp then 1 else 0) }
    b k2 hr rfl rfl (by simp only []; omega) ?_ h2
  · rw [e2]
  · apply process_fixed <;>
    rcases hp with h | h | h <;> subst h <;>
      simp [sbdsp_process, sbdsp_output, hr, DSP_DMA_PAUSE, DSP_DMA_RESUME, DSP_DMA_AUTO,
        DSP_DMA_HS_AUTO, DSP_SET_TIME_CONSTANT, DSP_DMA_BLOCK_SIZE, DSP_DMA_HS_SINGLE,
        DSP_DMA_SINGLE, DSP_IRQ, DSP_VERSION, DSP_IDENT, DSP_ENABLE_SPEAKER,
        DSP_DISABLE_SPEAKER, DSP_WRITETEST, DSP_READTEST]

set_option maxRecDepth 100000 in
/-- For every time-constant byte the stored 16-bit rate is not zero and the
interval derived from it fits 16 bits. -/
theorem rate_arith (tc : Nat) (htc : tc < 256) :
    (1000000 / (256 - tc)) % 65536 ≠ 0 ∧
    1000000 / ((1000000 / (256 - tc)) % 65536) < 65536 ∧
    (1000000 / (256 - tc)) % 65536 * 65535 / 49716 < 4294967296 ∧
    49716 / ((1000000 / (256 - tc)) % 65536) + 5 < 256 := by
  revert tc
  decide

/-- Every field written by the step that completes Set Time Constant. -/
theorem paced_time_constant_fields (s : sbdsp_t) (tc k1 k2 : Nat) (htc : tc < 256)
    (hr : s.reset_state = 0) (hc : s.current_command = 0)
    (hpace : host_paced [(0x40, k1), (tc, k2)] s = true) :
    (host_send [(0x40, k1), (tc, k2)] s).time_constant = tc ∧
    (host_send [(0x40, k1), (tc, k2)] s).sample_rate = (1000000 / (256 - tc)) % 65536 ∧
    (host_send [(0x40, k1), (tc, k2)] s).dma_interval
      = 1000000 / ((1000000 / (256 - tc)) % 65536) ∧
    (host_send [(0x40, k1), (tc, k2)] s).sample_step
      = (1000000 / (256 - tc)) % 65536 * 65535 / OUTPUT_SAMPLERATE ∧
    (host_send [(0x40, k1), (tc, k2)] s).sample_factor
      = OUTPUT_SAMPLERATE / ((1000000 / (256 - tc)) % 65536) + 5 ∧
    (host_send [(0x40, k1), (tc, k2)] s).current_command = 0 ∧
    (host_send [(0x40, k1), (tc, k2)] s).dav_dsp = false := by
  have ha := rate_arith tc htc
  rw [one_param_session s 0x40 tc k1 k2 hr hc (Or.inl rfl) hpace]
  simp [sbdsp_process, hr, DSP_DMA_PAUSE, DSP_DMA_RESUME, DSP_DMA_AUTO,
    DSP_DMA_HS_AUTO, DSP_SET_TIME_CONSTANT, OUTPUT_SAMPLERATE]
  exact ⟨ha.2.1, ha.2.2.1, ha.2.2.2⟩

/-- A session that sends a two-parameter command `c` and its parameters `lo`,
`hi`: the low byte is consumed by the step that finds the index at 1, the high
byte by the first step after it is written. -/
theorem two_param_session (s : sbdsp_t) (c lo hi k1 k2 k3 : Nat) (hr : s.reset_state = 0)
    (hc : s.current_command = 0) (hp : c = 0x48 ∨ c = 0x14)
    (hpace : host_paced [(c, k1), (lo, k2), (hi, k3)] s = true) :
    host_send [(c, k1), (lo, k2), (hi, k3)] s
      = sbdsp_process (sbdsp_write DSP_WRITE hi (sbdsp_process
          { s with inbox := lo, dav_dsp := true, current_command := c,
                   current_command_index := 1, dsp_busy := false,
                   overwrite_warnings := s.overwrite_warnings + (if s.dav_dsp then 1 else 0) })) := by
  simp only [host_paced, host_send, Bool.and_eq_true, beq_iff_eq, Bool.and_true] at hpace ⊢
  obtain ⟨h1, h2, h3⟩ := hpace
  have e1 := opcode_phase s c k1 hr hc (by omega) h1
  rw [e1] at h2 h3 ⊢
  have e2 := first_param_phase
    { s with inbox := c, current_command := c, current_command_index := 0,
             dav_dsp := false, dsp_busy := false,
             overwrite_warnings := s.overwrite_warnings + (if s.dav_dsp then 1 else 0) }
    lo k2 hr rfl rfl (by simp only []; omega) ?_ h2
  · rw [e2] at h3 ⊢
    refine steps_consume_one _ _ (by rw [write_port_eq]) rfl ?_ k3 h3
    rw [write_port_eq]
    apply process_fixed <;>
    rcases hp with h | h <;> subst h <;>
      simp [sbdsp_process, sbdsp_dma_enable, sbdsp_fifo_clear, PIC_AddEvent, hr, DSP_DMA_PAUSE,
        DSP_DMA_RESUME, DSP_DMA_AUTO, DSP_DMA_HS_AUTO, DSP_SET_TIME_CONSTANT,
        DSP_DMA_BLOCK_SIZE, DSP_DMA_HS_SINGLE, DSP_DMA_SINGLE, DSP_IRQ, DSP_VERSION, DSP_IDENT,
        DSP_ENABLE_SPEAKER, DSP_DISABLE_SPEAKER, DSP_WRITETEST, DSP_READTEST] <;>
      split_ifs <;> simp_all
  · apply process_fixed <;>
    rcases hp with h | h <;> subst h <;>
      simp [sbdsp_process, hr, DSP_DMA_PAUSE, DSP_DMA_RESUME, DSP_DMA_AUTO,
        DSP_DMA_HS_AUTO, DSP_SET_TIME_CONSTANT, DSP_DMA_BLOCK_SIZE, DSP_DMA_HS_SINGLE,
        DSP_DMA_SINGLE, DSP_IRQ, DSP_VERSION, DSP_IDENT, DSP_ENABLE_SPEAKER,
        DSP_DISABLE_SPEAKER, DSP_WRITETEST, DSP_READTEST]

theorem steps_clear_after_one (w w1 : sbdsp_t) (hw : w.dav_dsp = true)
    (h1 : sbdsp_process w = w1) (hd1 : w1.dav_dsp = false) (hfix : sbdsp_process w1 = w1)
    (k : Nat) : (steps k w).dav_dsp = false ↔ 1 ≤ k := by
  cases k with
  | zero => simp [steps, hw]
  | succ k => rw [steps_succ, h1, steps_fixed w1 hfix]; simp [hd1]

theorem steps_clear_after_two (w w1 w2 : sbdsp_t) (hw : w.dav_dsp = true)
    (h1 : sbdsp_process w = w1) (hw1 : w1.dav_dsp = true)
    (h2 : sbdsp_process w1 = w2) (hd2 : w2.dav_dsp = false) (hfix : sbdsp_process w2 = w2)
    (k : Nat) : (steps k w).dav_dsp = false ↔ 2 ≤ k := by
  cases k with
  | zero => simp [steps, hw]
  | succ k =>
    rw [steps_succ, h1, steps_clear_after_one w1 w2 hw1 h2 hd2 hfix k]
    omega

/-- The first parameter byte is found consumed exactly from the second step
on. -/
theorem first_param_clear_iff (w : sbdsp_t) (b k : Nat) (hr : w.reset_state = 0)
    (hd : w.dav_dsp = false) (hx : w.current_command_index = 0)
    (hp : w.current_command = 0x40 ∨ w.current_command = 0x48 ∨
      w.current_command = 0x14 ∨ w.current_command = 0xE0 ∨ w.current_command = 0xE4)
    (hd2 : (sbdsp_process
        { w with inbox := b, dav_dsp := true, current_command_index := 1,
                 dsp_busy := false }).dav_dsp = false)
    (hfix : sbdsp_process (sbdsp_process
        { w with inbox := b, dav_dsp := true, current_command_index := 1, dsp_busy := false })
      = sbdsp_process
        { w with inbox := b, dav_dsp := true, current_command_index := 1, dsp_busy := false }) :
    (steps k (sbdsp_write DSP_WRITE b w)).dav_dsp = false ↔ 2 ≤ k := by
  rw [write_port_eq]
  simp only [hd, Bool.false_eq_true, if_false, Nat.add_zero]
  have h1 := process_param_index0 { w with inbox := b, dav_dsp := true } hr rfl hx hp
  exact steps_clear_after_two _ _ _ rfl h1 rfl rfl hd2 hfix k

/-- The step that consumes the parameter of a one-parameter command clears
`dav_dsp` and leaves a state that further steps do not change. -/
theorem one_param_done (w : sbdsp_t) (b : Nat) (hr : w.reset_state = 0)
    (hp : w.current_command = 0x40 ∨ w.current_command = 0xE0 ∨ w.current_command = 0xE4) :
    (sbdsp_process
        { w with inbox := b, dav_dsp := true, current_command_index := 1,
                 dsp_busy := false }).dav_dsp = false ∧
    sbdsp_process (sbdsp_process
        { w with inbox := b, dav_dsp := true, current_command_index := 1, dsp_busy := false })
      = sbdsp_process
        { w with inbox := b, dav_dsp := true, current_command_index := 1, dsp_busy := false } := by
  refine ⟨?_, ?_⟩
  · rcases hp with h | h | h <;>
      simp [sbdsp_process, sbdsp_output, hr, h, DSP_DMA_PAUSE, DSP_DMA_RESUME, DSP_DMA_AUTO,
        DSP_DMA_HS_AUTO, DSP_SET_TIME_CONSTANT, DSP_DMA_BLOCK_SIZE, DSP_DMA_HS_SINGLE,
        DSP_DMA_SINGLE, DSP_IRQ, DSP_VERSION, DSP_IDENT, DSP_ENABLE_SPEAKER,
        DSP_DISABLE_SPEAKER, DSP_WRITETEST, DSP_READTEST]
  · apply process_fixed <;>
    rcases hp with h | h | h <;>
      simp [sbdsp_process, sbdsp_output, hr, h, DSP_DMA_PAUSE, DSP_DMA_RESUME, DSP_DMA_AUTO,
        DSP_DMA_HS_AUTO, DSP_SET_TIME_CONSTANT, DSP_DMA_BLOCK_SIZE, DSP_DMA_HS_SINGLE,
        DSP_DMA_SINGLE, DSP_IRQ, DSP_VERSION, DSP_IDENT, DSP_ENABLE_SPEAKER,
        DSP_DISABLE_SPEAKER, DSP_WRITETEST, DSP_READTEST]

/-- The opcode is found latched exactly from the first step on. -/
theorem opcode_clear_iff (s : sbdsp_t) (c k : Nat) (hr : s.reset_state = 0)
    (hc : s.current_command = 0)
    (hp : c = 0x40 ∨ c = 0x48 ∨ c = 0x14 ∨ c = 0xE0 ∨ c = 0xE4) :
    (steps k (sbdsp_write DSP_WRITE c s)).dav_dsp = false ↔ 1 ≤ k := by
  have hlatch := process_latch_param
    { s with inbox := c, dav_dsp := true,
             overwrite_warnings := s.overwrite_warnings + (if s.dav_dsp then 1 else 0) } c
    hr hc rfl rfl hp
  rw [write_port_eq]
  exact steps_clear_after_one _ _ rfl hlatch rfl
    (process_fixed _ hr rfl rfl (by simp only []; omega)) k

/-- The pacing of a one-parameter command is kept exactly when at least one step
follows the opcode and at least two follow the parameter. -/
theorem one_param_paced_iff (s : sbdsp_t) (c b k1 k2 : Nat) (hr : s.reset_state = 0)
    (hc : s.current_command = 0) (hp : c = 0x40 ∨ c = 0xE0 ∨ c = 0xE4) :
    host_paced [(c, k1), (b, k2)] s = true ↔ (1 ≤ k1 ∧ 2 ≤ k2) := by
  have i1 := opcode_clear_iff s c k1 hr hc (by omega)
  simp only [host_paced, Bool.and_eq_true, beq_iff_eq, Bool.and_true]
  have key : (steps k1 (sbdsp_write DSP_WRITE c s)).dav_dsp = false →
      ((steps k2 (sbdsp_write DSP_WRITE b (steps k1 (sbdsp_write DSP_WRITE c s)))).dav_dsp = false
        ↔ 2 ≤ k2) := by
    intro h1
    rw [opcode_phase s c k1 hr hc (by omega) h1]
    obtain ⟨w, hw⟩ : ∃ w : sbdsp_t, w =
        { s with inbox := c, current_command := c, current_command_index := 0,
                 dav_dsp := false, dsp_busy := false,
                 overwrite_warnings := s.overwrite_warnings + (if s.dav_dsp then 1 else 0) } :=
      ⟨_, rfl⟩
    rw [← hw]
    have hrw : w.reset_state = 0 := by rw [hw]; exact hr
    have hcw : w.current_command = c := by rw [hw]
    have hdone := one_param_done w b hrw (by rw [hcw]; exact hp)
    exact first_param_clear_iff w b k2 hrw (by rw [hw]) (by rw [hw]) (by rw [hcw]; omega)
      hdone.1 hdone.2
  constructor
  · rintro ⟨h1, h2⟩
    exact ⟨i1.mp h1, (key h1).mp h2⟩
  · rintro ⟨g1, g2⟩
    exact ⟨i1.mpr g1, (key (i1.mpr g1)).mpr g2⟩

/-- The step that consumes the low byte of a two-parameter command. -/
theorem two_param_low_done (w : sbdsp_t) (b : Nat) (hr : w.reset_state = 0)
    (hp : w.current_command = 0x48 ∨ w.current_command = 0x14) :
    (sbdsp_process
        { w with inbox := b, dav_dsp := true, current_command_index := 1,
                 dsp_busy := false }).dav_dsp = false ∧
    sbdsp_process (sbdsp_process
        { w with inbox := b, dav_dsp := true, current_command_index := 1, dsp_busy := false })
      = sbdsp_process
        { w with inbox := b, dav_dsp := true, current_command_index := 1, dsp_busy := false } ∧
    (sbdsp_process
        { w with inbox := b, dav_dsp := true, current_command_index := 1,
                 dsp_busy := false }).reset_state = 0 ∧
    (sbdsp_process
        { w with inbox := b, dav_dsp := true, current_command_index := 1,
                 dsp_busy := false }).current_command = w.current_command ∧
    (sbdsp_process
        { w with inbox := b, dav_dsp := true, current_command_index := 1,
                 dsp_busy := false }).current_command_index = 2 := by
  refine ⟨?_, ?_, ?_, ?_, ?_⟩
  on_goal 2 => apply process_fixed
  all_goals
    rcases hp with h | h <;>
      simp [sbdsp_process, hr, h, DSP_DMA_PAUSE, DSP_DMA_RESUME, DSP_DMA_AUTO,
        DSP_DMA_HS_AUTO, DSP_SET_TIME_CONSTANT, DSP_DMA_BLOCK_SIZE, DSP_DMA_HS_SINGLE,
        DSP_DMA_SINGLE, DSP_IRQ, DSP_VERSION, DSP_IDENT, DSP_ENABLE_SPEAKER,
        DSP_DISABLE_SPEAKER, DSP_WRITETEST, DSP_READTEST]

/-- The high byte of a two-parameter command is found consumed exactly from the
first step on. -/
theorem second_param_clear_iff (v : sbdsp_t) (hi k : Nat) (hr : v.reset_state = 0)
    (hd : v.dav_dsp = false) (hx : v.current_command_index = 2)
    (hp : v.current_command = 0x48 ∨ v.current_command = 0x14) :
    (steps k (sbdsp_write DSP_WRITE hi v)).dav_dsp = false ↔ 1 ≤ k := by
  rw [write_port_eq]
  simp only [hd, Bool.false_eq_true, if_false, Nat.add_zero]
  refine steps_clear_after_one _ _ rfl rfl ?_ ?_ k
  on_goal 2 => apply process_fixed
  all_goals
    rcases hp with h | h <;>
      simp [sbdsp_process, sbdsp_dma_enable, sbdsp_fifo_clear, PIC_AddEvent, hr, h, hx,
        DSP_DMA_PAUSE, DSP_DMA_RESUME, DSP_DMA_AUTO, DSP_DMA_HS_AUTO, DSP_SET_TIME_CONSTANT,
        DSP_DMA_BLOCK_SIZE, DSP_DMA_HS_SINGLE, DSP_DMA_SINGLE, DSP_IRQ, DSP_VERSION, DSP_IDENT,
        DSP_ENABLE_SPEAKER, DSP_DISABLE_SPEAKER, DSP_WRITETEST, DSP_READTEST] <;>
      split_ifs <;> simp_all

/-- The pacing of a two-parameter command is kept exactly when at least one step
follows the opcode, at least two follow the low byte and at least one follows
the high byte. -/
theorem two_param_paced_iff (s : sbdsp_t) (c lo hi k1 k2 k3 : Nat) (hr : s.reset_state = 0)
    (hc : s.current_command = 0) (hp : c = 0x48 ∨ c = 0x14) :
    host_paced [(c, k1), (lo, k2), (hi, k3)] s = true ↔ (1 ≤ k1 ∧ 2 ≤ k2 ∧ 1 ≤ k3) := by
  have i1 := opcode_clear_iff s c k1 hr hc (by omega)
  simp only [host_paced, Bool.and_eq_true, beq_iff_eq, Bool.and_true]
  have key : (steps k1 (sbdsp_write DSP_WRITE c s)).dav_dsp = false →
      (((steps k2 (sbdsp_write DSP_WRITE lo (steps k1 (sbdsp_write DSP_WRITE c s)))).dav_dsp
          = false ↔ 2 ≤ k2) ∧
       ((steps k2 (sbdsp_write DSP_WRITE lo (steps k1 (sbdsp_write DSP_WRITE c s)))).dav_dsp
          = false →
        ((steps k3 (sbdsp_write DSP_WRITE hi (steps k2 (sbdsp_write DSP_WRITE lo
            (steps k1 (sbdsp_write DSP_WRITE c s)))))).dav_dsp = false ↔ 1 ≤ k3))) := by
    intro h1
    rw [opcode_phase s c k1 hr hc (by omega) h1]
    obtain ⟨w, hw⟩ : ∃ w : sbdsp_t, w =
        { s with inbox := c, current_command := c, current_command_index := 0,
                 dav_dsp := false, dsp_busy := false,
                 overwrite_warnings := s.overwrite_warnings + (if s.dav_dsp then 1 else 0) } :=
      ⟨_, rfl⟩
    rw [← hw]
    have hrw : w.reset_state = 0 := by rw [hw]; exact hr
    have hcw : w.current_command = c := by rw [hw]
    have hdw : w.dav_dsp = false := by rw [hw]
    have hxw : w.current_command_index = 0 := by rw [hw]
    have hpw : w.current_command = 0x48 ∨ w.current_command = 0x14 := by rw [hcw]; exact hp
    obtain ⟨d1, d2, d3, d4, d5⟩ := two_param_low_done w lo hrw hpw
    refine ⟨first_param_clear_iff w lo k2 hrw hdw hxw (by omega) d1 d2, ?_⟩
    intro h2
    rw [first_param_phase w lo k2 hrw hdw hxw (by omega) d2 h2]
    exact second_param_clear_iff _ hi k3 d3 d1 d5 (by rw [d4]; exact hpw)
  constructor
  · rintro ⟨h1, h2, h3⟩
    exact ⟨i1.mp h1, (key h1).1.mp h2, ((key h1).2 h2).mp h3⟩
  · rintro ⟨g1, g2, g3⟩
    have h1 := i1.mpr g1
    have h2 := (key h1).1.mpr g2
    exact ⟨h1, h2, ((key h1).2 h2).mpr g3⟩

/-- Inside Get Version with the first byte out and unread, a step only clears
the busy flag. -/
theorem process_version_unread (t : sbdsp_t) (hr : t.reset_state = 0)
    (hc : t.current_command = 0xE1) (hx : t.current_command_index ≠ 0)
    (hp : t.dav_pc = true) :
    sbdsp_process t = { t with dsp_busy := false } := by
  cases hd : t.dav_dsp <;>
    simp [sbdsp_process, sbdsp_output, hr, hc, hx, hp, hd, DSP_DMA_PAUSE, DSP_DMA_RESUME,
      DSP_DMA_AUTO, DSP_DMA_HS_AUTO, DSP_SET_TIME_CONSTANT, DSP_DMA_BLOCK_SIZE,
      DSP_DMA_HS_SINGLE, DSP_DMA_SINGLE, DSP_IRQ, DSP_VERSION]

/-- Any number of steps taken while the major version is unread keep it in
`outbox`. -/
theorem steps_version_unread (k : Nat) (t : sbdsp_t) (hr : t.reset_state = 0)
    (hc : t.current_command = 0xE1) (hx : t.current_command_index = 1)
    (hp : t.dav_pc = true) :
    (steps k t).reset_state = 0 ∧ (steps k t).current_command = 0xE1 ∧
    (steps k t).current_command_index = 1 ∧ (steps k t).dav_pc = true ∧
    (steps k t).outbox = t.outbox := by
  induction k generalizing t with
  | zero => exact ⟨hr, hc, hx, hp, rfl⟩
  | succ k ih =>
    rw [steps_succ, process_version_unread t hr hc (by omega) hp]
    exact ih _ hr hc hx hp

/-- The step that runs Get Version with the index at 0, whether the opcode was
latched before the step or is latched by it. -/
theorem process_version_major (s : sbdsp_t) (hr : s.reset_state = 0)
    (hl : (s.current_command = 0xE1 ∧ s.current_command_index = 0) ∨
      (s.current_command = 0 ∧ s.dav_dsp = true ∧ s.inbox = 0xE1)) :
    (sbdsp_process s).reset_state = 0 ∧ (sbdsp_process s).current_command = 0xE1 ∧
    (sbdsp_process s).current_command_index = 1 ∧ (sbdsp_process s).dav_pc = true ∧
    (sbdsp_process s).outbox = 2 := by
  rcases hl with ⟨hc, hx⟩ | ⟨hc, hd, hi⟩
  · cases hd : s.dav_dsp <;>
      simp [sbdsp_process, sbdsp_output, hr, hc, hx, hd, DSP_DMA_PAUSE, DSP_DMA_RESUME,
        DSP_DMA_AUTO, DSP_DMA_HS_AUTO, DSP_SET_TIME_CONSTANT, DSP_DMA_BLOCK_SIZE,
        DSP_DMA_HS_SINGLE, DSP_DMA_SINGLE, DSP_IRQ, DSP_VERSION, DSP_VERSION_MAJOR]
  · simp [sbdsp_process, sbdsp_output, hr, hc, hd, hi, DSP_DMA_PAUSE, DSP_DMA_RESUME,
      DSP_DMA_AUTO, DSP_DMA_HS_AUTO, DSP_SET_TIME_CONSTANT, DSP_DMA_BLOCK_SIZE,
      DSP_DMA_HS_SINGLE, DSP_DMA_SINGLE, DSP_IRQ, DSP_VERSION, DSP_VERSION_MAJOR]

/-- The step that runs Get Version after the host has read the major version. -/
theorem process_version_minor (t : sbdsp_t) (hr : t.reset_state = 0)
    (hc : t.current_command = 0xE1) (hx : t.current_command_index ≠ 0)
    (hp : t.dav_pc = false) :
    (sbdsp_process t).outbox = 1 ∧ (sbdsp_process t).dav_pc = true ∧
    (sbdsp_process t).current_command = 0 := by
  cases hd : t.dav_dsp <;>
    simp [sbdsp_process, sbdsp_output, hr, hc, hx, hp, hd, DSP_DMA_PAUSE, DSP_DMA_RESUME,
      DSP_DMA_AUTO, DSP_DMA_HS_AUTO, DSP_SET_TIME_CONSTANT, DSP_DMA_BLOCK_SIZE,
      DSP_DMA_HS_SINGLE, DSP_DMA_SINGLE, DSP_IRQ, DSP_VERSION, DSP_VERSION_MINOR]

/-- What a paced Set Time Constant session leaves in the rate fields. -/
theorem paced_time_constant_rate (s : sbdsp_t) (tc k1 k2 : Nat) (htc : tc < 256)
    (hr : s.reset_state = 0) (hc : s.current_command = 0)
    (hpace : host_paced [(0x40, k1), (tc, k2)] s = true) :
    (host_send [(0x40, k1), (tc, k2)] s).time_constant = tc ∧
    (host_send [(0x40, k1), (tc, k2)] s).sample_rate = (1000000 / (256 - tc)) % 65536 ∧
    (tc ≤ 240 → (host_send [(0x40, k1), (tc, k2)] s).sample_rate = 1000000 / (256 - tc)) ∧
    (host_send [(0x40, k1), (tc, k2)] s).dma_interval
      = 1000000 / (host_send [(0x40, k1), (tc, k2)] s).sample_rate ∧
    (tc = 0xD4 → (host_send [(0x40, k1), (tc, k2)] s).sample_rate = 22727) := by
  obtain ⟨f1, f2, f3, -⟩ := paced_time_constant_fields s tc k1 k2 htc hr hc hpace
  refine ⟨f1, f2, ?_, ?_, ?_⟩
  · intro h240
    rw [f2]
    apply Nat.mod_eq_of_lt
    have h16 : 16 ≤ 256 - tc := by omega
    calc 1000000 / (256 - tc) ≤ 1000000 / 16 := Nat.div_le_div_left h16 (by norm_num)
      _ < 65536 := by norm_num
  · rw [f3, f2]
  · intro hd4
    rw [f2, hd4]

/-- What a paced Set Block Size session leaves. -/
theorem paced_block_size (s : sbdsp_t) (low high k1 k2 k3 : Nat)
    (hlow : low < 256) (hhigh : high < 256)
    (hr : s.reset_state = 0) (hc : s.current_command = 0)
    (hpace : host_paced [(0x48, k1), (low, k2), (high, k3)] s = true) :
    (host_send [(0x48, k1), (low, k2), (high, k3)] s).current_command = 0 ∧
    (host_send [(0x48, k1), (low, k2), (high, k3)] s).dav_dsp = false ∧
    (host_send [(0x48, k1), (low, k2), (high, k3)] s).dma_block_size = low + 256 * high := by
  rw [two_param_session s 0x48 low high k1 k2 k3 hr hc (Or.inl rfl) hpace, write_port_eq]
  simp [sbdsp_process, hr, DSP_DMA_PAUSE, DSP_DMA_RESUME, DSP_DMA_AUTO,
    DSP_DMA_HS_AUTO, DSP_SET_TIME_CONSTANT, DSP_DMA_BLOCK_SIZE]
  omega

/-- What a paced DMA Single session leaves. -/
theorem paced_dma_single (s : sbdsp_t) (low high k1 k2 k3 : Nat)
    (hlow : low < 256) (hhigh : high < 256)
    (hr : s.reset_state = 0) (hc : s.current_command = 0)
    (hpace : host_paced [(0x14, k1), (low, k2), (high, k3)] s = true) :
    (host_send [(0x14, k1), (low, k2), (high, k3)] s).current_command = 0 ∧
    (host_send [(0x14, k1), (low, k2), (high, k3)] s).dav_dsp = false ∧
    (host_send [(0x14, k1), (low, k2), (high, k3)] s).dma_sample_count = low + 256 * high ∧
    (host_send [(0x14, k1), (low, k2), (high, k3)] s).dma_sample_count_rx = 0 ∧
    (host_send [(0x14, k1), (low, k2), (high, k3)] s).autoinit = false ∧
    (host_send [(0x14, k1), (low, k2), (high, k3)] s).dma_enabled = true := by
  rw [two_param_session s 0x14 low high k1 k2 k3 hr hc (Or.inr rfl) hpace, write_port_eq]
  have hsum : (low + high * 256) % 4294967296 = low + 256 * high := by omega
  cases hen : s.dma_enabled <;>
    simp [sbdsp_process, sbdsp_dma_enable, sbdsp_fifo_clear, PIC_AddEvent, hr, hen, hsum,
      DSP_DMA_PAUSE, DSP_DMA_RESUME, DSP_DMA_AUTO, DSP_DMA_HS_AUTO, DSP_SET_TIME_CONSTANT,
      DSP_DMA_BLOCK_SIZE, DSP_DMA_HS_SINGLE, DSP_DMA_SINGLE]

/-- What a paced Identify session leaves. -/
theorem paced_ident (s : sbdsp_t) (b k1 k2 : Nat) (hb : b < 256)
    (hr : s.reset_state = 0) (hc : s.current_command = 0)
    (hpace : host_paced [(0xE0, k1), (b, k2)] s = true) :
    (host_send [(0xE0, k1), (b, k2)] s).current_command = 0 ∧
    (host_send [(0xE0, k1), (b, k2)] s).dav_dsp = false ∧
    (host_send [(0xE0, k1), (b, k2)] s).dav_pc = true ∧
    (host_send [(0xE0, k1), (b, k2)] s).outbox = 255 - b ∧
    (sbdsp_read DSP_READ (host_send [(0xE0, k1), (b, k2)] s)).1 = 255 - b ∧
    (b = 0 → (sbdsp_read DSP_READ (host_send [(0xE0, k1), (b, k2)] s)).1 = 0xFF) := by
  have hcompl : bitnot32 b % 256 = 255 - b := by
    unfold bitnot32; omega
  rw [one_param_session s 0xE0 b k1 k2 hr hc (Or.inr (Or.inl rfl)) hpace]
  simp [sbdsp_process, sbdsp_output, sbdsp_read, hr, hcompl, DSP_DMA_PAUSE, DSP_DMA_RESUME,
    DSP_DMA_AUTO, DSP_DMA_HS_AUTO, DSP_SET_TIME_CONSTANT, DSP_DMA_BLOCK_SIZE, DSP_DMA_HS_SINGLE,
    DSP_DMA_SINGLE, DSP_IRQ, DSP_VERSION, DSP_IDENT, DSP_READ]
  intro h0
  rw [h0]

/-! ## Claims -/

/-- C1 (evaluation of the code where the claim fails): with four bytes buffered
across the end of the ring (`head = 1022`, `tail = 2`, bytes `18, 19, 0, 1`) a
pop of 4 returns 4 and delivers the first two bytes, but the two bytes from the
start of the ring are copied to offsets `256 - 1022 = -766` and `-765` from the
caller's pointer, and positions 2 and 3 of the caller's buffer keep their old
contents.  With 1023 bytes buffered from `head = 256`, a pop of 1023 puts
`ring[0]` at position 0, over the oldest byte `ring[256]`, and leaves position
768 unwritten. -/
theorem fifo_tx_wrap_second_copy_misplaced :
    (sbdsp_fifo_level wrap_dev = 4 ∧
     (sbdsp_fifo_tx wrap_dev mem_ee 4).2.2 = 4 ∧
     wrap_dev.dma_buffer ((1022 + 2) % 1024) = 0 ∧
     wrap_dev.dma_buffer ((1022 + 3) % 1024) = 1 ∧
     (sbdsp_fifo_tx wrap_dev mem_ee 4).2.1 0 = 18 ∧
     (sbdsp_fifo_tx wrap_dev mem_ee 4).2.1 1 = 19 ∧
     (sbdsp_fifo_tx wrap_dev mem_ee 4).2.1 2 = 0xEE ∧
     (sbdsp_fifo_tx wrap_dev mem_ee 4).2.1 3 = 0xEE ∧
     (sbdsp_fifo_tx wrap_dev mem_ee 4).2.1 (-766) = 0 ∧
     (sbdsp_fifo_tx wrap_dev mem_ee 4).2.1 (-765) = 1) ∧
    (sbdsp_fifo_level wrap_dev_full = 1023 ∧
     (sbdsp_fifo_tx wrap_dev_full mem_ee 1023).2.2 = 1023 ∧
     wrap_dev_full.dma_buffer ((256 + 0) % 1024) = 5 ∧
     (sbdsp_fifo_tx wrap_dev_full mem_ee 1023).2.1 0 = 0 ∧
     wrap_dev_full.dma_buffer ((256 + 768) % 1024) = 0 ∧
     (sbdsp_fifo_tx wrap_dev_full mem_ee 1023).2.1 768 = 0xEE) := by
  decide

/-- C2: in every FIFO state with `head, tail < 1024`, `level()` is
`(tail - head) mod 1024`; one push takes the level from `L` to `(L+1) mod 1024`;
a pop with `max_len` takes it from `L` to `L - min(L, max_len)` and keeps
`head < 1024`; and from an empty FIFO, along every schedule of pushes and pops
that keeps `N - M < 1024` throughout, `level() = N - M` for `N` bytes pushed and
`M` bytes popped. -/
theorem fifo_level_accounting (s : sbdsp_t)
    (hh : s.dma_buffer_head < 1024) (ht : s.dma_buffer_tail < 1024) :
    ((sbdsp_fifo_level s : Int) = ((s.dma_buffer_tail : Int) - (s.dma_buffer_head : Int)) % 1024) ∧
    (∀ b : Nat, sbdsp_fifo_level (sbdsp_fifo_rx b s) = (sbdsp_fifo_level s + 1) % 1024) ∧
    (∀ (buf : Int → Nat) (max_len : Nat),
      sbdsp_fifo_level (sbdsp_fifo_tx s buf max_len).1
        = sbdsp_fifo_level s - min (sbdsp_fifo_level s) max_len ∧
      (sbdsp_fifo_tx s buf max_len).1.dma_buffer_head < 1024) ∧
    (s.dma_buffer_head = s.dma_buffer_tail →
      ∀ (ops : Nat → fifo_op) (n : Nat),
        (∀ k, k ≤ n →
          (fifo_run ops k ⟨s, 0, 0⟩).pushed - (fifo_run ops k ⟨s, 0, 0⟩).popped < 1024) →
        sbdsp_fifo_level (fifo_run ops n ⟨s, 0, 0⟩).dev
          = (fifo_run ops n ⟨s, 0, 0⟩).pushed - (fifo_run ops n ⟨s, 0, 0⟩).popped ∧
        (fifo_run ops n ⟨s, 0, 0⟩).popped ≤ (fifo_run ops n ⟨s, 0, 0⟩).pushed) := by
  refine ⟨?_, fun b => fifo_rx_level b s hh ht, fun buf max_len => ⟨?_, ?_⟩, ?_⟩
  · rw [fifo_level_eq s hh ht]; omega
  · exact fifo_tx_level s buf max_len hh ht
  · rw [fifo_tx_head s buf max_len hh ht]; exact Nat.mod_lt _ (by norm_num)
  · intro he ops n hb
    have h := fifo_run_invariant ops s ht he n hb
    exact ⟨h.2.2.1, h.2.2.2⟩

/-- C2 at a concrete FIFO: empty with both indices at 1020; after six pushes and
a pop of four (seven operations of `sample_ops`) the level is 2. -/
theorem fifo_level_accounting_witness :
    (empty_dev.dma_buffer_head < 1024 ∧ empty_dev.dma_buffer_tail < 1024) ∧
    (fifo_run sample_ops 7 ⟨empty_dev, 0, 0⟩).pushed = 6 ∧
    (fifo_run sample_ops 7 ⟨empty_dev, 0, 0⟩).popped = 4 ∧
    sbdsp_fifo_level (fifo_run sample_ops 7 ⟨empty_dev, 0, 0⟩).dev
      = (fifo_run sample_ops 7 ⟨empty_dev, 0, 0⟩).pushed
        - (fifo_run sample_ops 7 ⟨empty_dev, 0, 0⟩).popped :=
  ⟨by decide, by decide, by decide,
    ((fifo_level_accounting empty_dev (by decide) (by decide)).2.2.2 (by decide)
      sample_ops 7 (by decide)).1⟩

/-- C3: starting from an empty FIFO and pushing 1025 bytes with no pop, exactly
one push reports an overrun (the 1024th, the one made at level 1023), every push
advances the tail by one place round the ring, and the only byte lost is the
first one pushed: its slot holds the first byte after 1024 pushes and the
1025th byte after 1025 pushes, while bytes 2..1024 are all still in place. -/
theorem fifo_overrun_on_capacity_plus_one (bytes : Nat → Nat) (s : sbdsp_t)
    (ht : s.dma_buffer_tail < 1024) (he : s.dma_buffer_head = s.dma_buffer_tail) :
    (fifo_push_seq bytes 1025 s).overrun_reports = s.overrun_reports + 1 ∧
    (∀ k, k < 1025 →
      (fifo_push_seq bytes (k + 1) s).overrun_reports
        = (fifo_push_seq bytes k s).overrun_reports + (if k = 1023 then 1 else 0)) ∧
    (∀ k, k < 1025 →
      (fifo_push_seq bytes (k + 1) s).dma_buffer_tail
        = ((fifo_push_seq bytes k s).dma_buffer_tail + 1) % 1024) ∧
    (fifo_push_seq bytes 1024 s).dma_buffer s.dma_buffer_tail = bytes 0 ∧
    (fifo_push_seq bytes 1025 s).dma_buffer s.dma_buffer_tail = bytes 1024 ∧
    (∀ k, 1 ≤ k → k < 1024 →
      (fifo_push_seq bytes 1025 s).dma_buffer ((s.dma_buffer_tail + k) % 1024) = bytes k) := by
  refine ⟨?_, ?_, ?_, ?_, ?_, ?_⟩
  · rw [fifo_push_seq_overrun bytes s ht he]
  · intro k hk
    rw [fifo_push_seq_overrun bytes s ht he, fifo_push_seq_overrun bytes s ht he]
    split_ifs <;> omega
  · intro k hk
    rw [(fifo_push_seq_indices bytes s ht (k + 1)).2, (fifo_push_seq_indices bytes s ht k).2]
    omega
  · have h := fifo_push_seq_buffer bytes s ht 1024 0 (by norm_num) (by norm_num)
    rw [Nat.add_zero, Nat.mod_eq_of_lt ht] at h
    exact h
  · have h := fifo_push_seq_buffer bytes s ht 1025 1024 (by norm_num) (by norm_num)
    rw [Nat.add_mod_right, Nat.mod_eq_of_lt ht] at h
    exact h
  · intro k h1 h2
    exact fifo_push_seq_buffer bytes s ht 1025 k (by omega) (by omega)

/-- C3 at a concrete FIFO: empty with both indices at 1020, fed the bytes
`k % 256`. -/
theorem fifo_overrun_on_capacity_plus_one_witness :
    (empty_dev.dma_buffer_tail < 1024 ∧ empty_dev.dma_buffer_head = empty_dev.dma_buffer_tail) ∧
    (fifo_push_seq (fun k => k % 256) 1025 empty_dev).overrun_reports
      = empty_dev.overrun_reports + 1 ∧
    (fifo_push_seq (fun k => k % 256) 1025 empty_dev).dma_buffer empty_dev.dma_buffer_tail
      = (fun k => k % 256) 1024 :=
  ⟨by decide,
    (fifo_overrun_on_capacity_plus_one (fun k => k % 256) empty_dev (by decide) (by decide)).1,
    (fifo_overrun_on_capacity_plus_one (fun k => k % 256) empty_dev
      (by decide) (by decide)).2.2.2.2.1⟩

/-- C4 as stated fails: for the time-constant byte 255 the quotient
`1000000 / (256 - 255) = 1000000` does not fit the 16-bit field, and the stored
`sample_rate` is `1000000 mod 65536 = 16960`. -/
theorem time_constant_255_truncates :
    host_paced [(0x40, 1), (255, 2)] sbdsp_zero = true ∧
    (host_send [(0x40, 1), (255, 2)] sbdsp_zero).time_constant = 255 ∧
    (host_send [(0x40, 1), (255, 2)] sbdsp_zero).sample_rate = 16960 ∧
    (host_send [(0x40, 1), (255, 2)] sbdsp_zero).sample_rate ≠ 1000000 / (256 - 255) := by
  decide

/-- C4, amended: for every time-constant byte `tc`, from every idle, non-reset
state, the host completes Set Time Constant by writing opcode 0x40 and then
`tc`, each once the steps have cleared `dav_dsp` (which is the case exactly
from one step after the opcode and two after the byte); this stores
`time_constant = tc`, `sample_rate = floor(1000000 / (256 - tc)) mod 65536`,
which is `floor(1000000 / (256 - tc))` itself for `tc ≤ 240`, and
`dma_interval = floor(1000000 / sample_rate)`; for `tc = 0xD4` the rate is
22727. -/
theorem set_time_constant_rate (s : sbdsp_t) (tc : Nat) (htc : tc < 256)
    (hr : s.reset_state = 0) (hc : s.current_command = 0) :
    (∀ k1 k2 : Nat, host_paced [(0x40, k1), (tc, k2)] s = true ↔ (1 ≤ k1 ∧ 2 ≤ k2)) ∧
    (∀ k1 k2 : Nat, host_paced [(0x40, k1), (tc, k2)] s = true →
      (host_send [(0x40, k1), (tc, k2)] s).time_constant = tc ∧
      (host_send [(0x40, k1), (tc, k2)] s).sample_rate = (1000000 / (256 - tc)) % 65536 ∧
      (tc ≤ 240 → (host_send [(0x40, k1), (tc, k2)] s).sample_rate = 1000000 / (256 - tc)) ∧
      (host_send [(0x40, k1), (tc, k2)] s).dma_interval
        = 1000000 / (host_send [(0x40, k1), (tc, k2)] s).sample_rate ∧
      (tc = 0xD4 → (host_send [(0x40, k1), (tc, k2)] s).sample_rate = 22727)) :=
  ⟨fun k1 k2 => one_param_paced_iff s 0x40 tc k1 k2 hr hc (Or.inl rfl),
   fun k1 k2 hpace => paced_time_constant_rate s tc k1 k2 htc hr hc hpace⟩

/-- C4 at a concrete session: opcode 0x40 and the byte 0xD4 sent to the
zero-initialised device, one step after the opcode and two after the byte. -/
theorem set_time_constant_rate_witness :
    ((0xD4 : Nat) < 256 ∧ sbdsp_zero.reset_state = 0 ∧ sbdsp_zero.current_command = 0) ∧
    host_paced [(0x40, 1), (0xD4, 2)] sbdsp_zero = true ∧
    (host_send [(0x40, 1), (0xD4, 2)] sbdsp_zero).sample_rate = 22727 ∧
    (host_send [(0x40, 1), (0xD4, 2)] sbdsp_zero).dma_interval
      = 1000000 / (host_send [(0x40, 1), (0xD4, 2)] sbdsp_zero).sample_rate :=
  ⟨by decide,
    ((set_time_constant_rate sbdsp_zero 0xD4 (by decide) (by decide) (by decide)).1 1 2).mpr
      (by decide),
    ((set_time_constant_rate sbdsp_zero 0xD4 (by decide) (by decide) (by decide)).2 1 2
      (by decide)).2.2.2.2 rfl,
    ((set_time_constant_rate sbdsp_zero 0xD4 (by decide) (by decide) (by decide)).2 1 2
      (by decide)).2.2.2.1⟩

/-- C5 (evaluation of the code where the claim fails): Set Time Constant with
the byte 0x9C gives `sample_rate = 10000` and stores
`sample_step = floor(10000 * 65535 / 49716) = 13181`, computed with the factor
65535, while the 16-fractional-bit ratio `floor(10000 * 65536 / 49716)` is
13182; `sample_factor` is `floor(49716 / 10000) + 5 = 9` as claimed. -/
theorem set_time_constant_step_uses_65535 :
    host_paced [(0x40, 1), (0x9C, 2)] sbdsp_zero = true ∧
    (host_send [(0x40, 1), (0x9C, 2)] sbdsp_zero).sample_rate = 10000 ∧
    (host_send [(0x40, 1), (0x9C, 2)] sbdsp_zero).sample_step = 13181 ∧
    10000 * 65535 / OUTPUT_SAMPLERATE = 13181 ∧
    10000 * 65536 / OUTPUT_SAMPLERATE = 13182 ∧
    (host_send [(0x40, 1), (0x9C, 2)] sbdsp_zero).sample_factor = OUTPUT_SAMPLERATE / 10000 + 5 := by
  decide

/-- C6: for every pair of bytes `(low, high)`, from every idle, non-reset state,
when the host writes opcode 0x48, then `low`, then `high`, each byte once the
steps have cleared `dav_dsp` (which is the case exactly from one step after the
opcode, two after `low` and one after `high`), the device ends idle
(`current_command = 0`, `dav_dsp` clear) with
`dma_block_size = low + 256 * high`. -/
theorem set_block_size_assembles (s : sbdsp_t) (low high : Nat)
    (hlow : low < 256) (hhigh : high < 256)
    (hr : s.reset_state = 0) (hc : s.current_command = 0) :
    (∀ k1 k2 k3 : Nat, host_paced [(0x48, k1), (low, k2), (high, k3)] s = true ↔
      (1 ≤ k1 ∧ 2 ≤ k2 ∧ 1 ≤ k3)) ∧
    (∀ k1 k2 k3 : Nat, host_paced [(0x48, k1), (low, k2), (high, k3)] s = true →
      (host_send [(0x48, k1), (low, k2), (high, k3)] s).current_command = 0 ∧
      (host_send [(0x48, k1), (low, k2), (high, k3)] s).dav_dsp = false ∧
      (host_send [(0x48, k1), (low, k2), (high, k3)] s).dma_block_size = low + 256 * high) :=
  ⟨fun k1 k2 k3 => two_param_paced_iff s 0x48 low high k1 k2 k3 hr hc (Or.inl rfl),
   fun k1 k2 k3 hpace => paced_block_size s low high k1 k2 k3 hlow hhigh hr hc hpace⟩

/-- C6 at a concrete session: the bytes `[0x48, 0x00, 0x04]` sent to the
zero-initialised device give `dma_block_size = 1024`. -/
theorem set_block_size_assembles_witness :
    ((0x00 : Nat) < 256 ∧ (0x04 : Nat) < 256 ∧ sbdsp_zero.reset_state = 0 ∧
      sbdsp_zero.current_command = 0) ∧
    host_paced [(0x48, 1), (0x00, 2), (0x04, 1)] sbdsp_zero = true ∧
    (host_send [(0x48, 1), (0x00, 2), (0x04, 1)] sbdsp_zero).dma_block_size = 1024 :=
  ⟨by decide,
    ((set_block_size_assembles sbdsp_zero 0x00 0x04 (by decide) (by decide) (by decide)
      (by decide)).1 1 2 1).mpr (by decide),
    ((set_block_size_assembles sbdsp_zero 0x00 0x04 (by decide) (by decide) (by decide)
      (by decide)).2 1 2 1 (by decide)).2.2⟩

/-- C7: for every pair of bytes `(low, high)`, from every idle, non-reset state,
when the host writes opcode 0x14, then `low`, then `high`, each byte once the
steps have cleared `dav_dsp` (which is the case exactly from one step after the
opcode, two after `low` and one after `high`), the device ends idle with
`dma_sample_count = low + 256 * high`, `dma_sample_count_rx = 0`,
`autoinit = false` and `dma_enabled = true`. -/
theorem dma_single_programs_transfer (s : sbdsp_t) (low high : Nat)
    (hlow : low < 256) (hhigh : high < 256)
    (hr : s.reset_state = 0) (hc : s.current_command = 0) :
    (∀ k1 k2 k3 : Nat, host_paced [(0x14, k1), (low, k2), (high, k3)] s = true ↔
      (1 ≤ k1 ∧ 2 ≤ k2 ∧ 1 ≤ k3)) ∧
    (∀ k1 k2 k3 : Nat, host_paced [(0x14, k1), (low, k2), (high, k3)] s = true →
      (host_send [(0x14, k1), (low, k2), (high, k3)] s).current_command = 0 ∧
      (host_send [(0x14, k1), (low, k2), (high, k3)] s).dav_dsp = false ∧
      (host_send [(0x14, k1), (low, k2), (high, k3)] s).dma_sample_count = low + 256 * high ∧
      (host_send [(0x14, k1), (low, k2), (high, k3)] s).dma_sample_count_rx = 0 ∧
      (host_send [(0x14, k1), (low, k2), (high, k3)] s).autoinit = false ∧
      (host_send [(0x14, k1), (low, k2), (high, k3)] s).dma_enabled = true) :=
  ⟨fun k1 k2 k3 => two_param_paced_iff s 0x14 low high k1 k2 k3 hr hc (Or.inr rfl),
   fun k1 k2 k3 hpace => paced_dma_single s low high k1 k2 k3 hlow hhigh hr hc hpace⟩

/-- C7 at a concrete session: the bytes `[0x14, 0xFF, 0x00]` sent to the
zero-initialised device give `dma_sample_count = 255` with pacing enabled. -/
theorem dma_single_programs_transfer_witness :
    ((0xFF : Nat) < 256 ∧ (0x00 : Nat) < 256 ∧ sbdsp_zero.reset_state = 0 ∧
      sbdsp_zero.current_command = 0) ∧
    host_paced [(0x14, 1), (0xFF, 2), (0x00, 1)] sbdsp_zero = true ∧
    (host_send [(0x14, 1), (0xFF, 2), (0x00, 1)] sbdsp_zero).dma_sample_count = 255 ∧
    (host_send [(0x14, 1), (0xFF, 2), (0x00, 1)] sbdsp_zero).autoinit = false ∧
    (host_send [(0x14, 1), (0xFF, 2), (0x00, 1)] sbdsp_zero).dma_enabled = true :=
  ⟨by decide,
    ((dma_single_programs_transfer sbdsp_zero 0xFF 0x00 (by decide) (by decide) (by decide)
      (by decide)).1 1 2 1).mpr (by decide),
    ((dma_single_programs_transfer sbdsp_zero 0xFF 0x00 (by decide) (by decide) (by decide)
      (by decide)).2 1 2 1 (by decide)).2.2.1,
    ((dma_single_programs_transfer sbdsp_zero 0xFF 0x00 (by decide) (by decide) (by decide)
      (by decide)).2 1 2 1 (by decide)).2.2.2.2.1,
    ((dma_single_programs_transfer sbdsp_zero 0xFF 0x00 (by decide) (by decide) (by decide)
      (by decide)).2 1 2 1 (by decide)).2.2.2.2.2⟩

/-- C8: from every device state, writing 1 and then 0 to the reset port leaves
`reset_state = 0`, `outbox = 0xAA`, `dav_pc` set, `current_command = 0`,
`current_command_index = 0`, `dma_block_size = 0x7FF`, both sample counters 0,
`autoinit = false` and `dma_enabled = false`; writing 0 while `reset_state = 0`,
or writing any value other than 0 or 1, leaves the whole state unchanged. -/
theorem reset_round_trip (s : sbdsp_t) :
    ((sbdsp_write DSP_RESET 0 (sbdsp_write DSP_RESET 1 s)).reset_state = 0 ∧
     (sbdsp_write DSP_RESET 0 (sbdsp_write DSP_RESET 1 s)).outbox = 0xAA ∧
     (sbdsp_write DSP_RESET 0 (sbdsp_write DSP_RESET 1 s)).dav_pc = true ∧
     (sbdsp_write DSP_RESET 0 (sbdsp_write DSP_RESET 1 s)).current_command = 0 ∧
     (sbdsp_write DSP_RESET 0 (sbdsp_write DSP_RESET 1 s)).current_command_index = 0 ∧
     (sbdsp_write DSP_RESET 0 (sbdsp_write DSP_RESET 1 s)).dma_block_size = 0x7FF ∧
     (sbdsp_write DSP_RESET 0 (sbdsp_write DSP_RESET 1 s)).dma_sample_count = 0 ∧
     (sbdsp_write DSP_RESET 0 (sbdsp_write DSP_RESET 1 s)).dma_sample_count_rx = 0 ∧
     (sbdsp_write DSP_RESET 0 (sbdsp_write DSP_RESET 1 s)).autoinit = false ∧
     (sbdsp_write DSP_RESET 0 (sbdsp_write DSP_RESET 1 s)).dma_enabled = false) ∧
    (s.reset_state = 0 → sbdsp_write DSP_RESET 0 s = s) ∧
    (∀ v : Nat, v ≠ 0 → v ≠ 1 → sbdsp_write DSP_RESET v s = s) := by
  refine ⟨?_, ?_, ?_⟩
  · simp [sbdsp_write, sbdsp_reset, DSP_RESET, DSP_WRITE]
  · intro h0
    simp [sbdsp_write, sbdsp_reset, DSP_RESET, DSP_WRITE, h0]
  · intro v h0 h1
    simp [sbdsp_write, sbdsp_reset, DSP_RESET, DSP_WRITE, h0, h1]

/-- C8 at a concrete state: the device left by a DMA Single command (pacing
enabled, `dma_sample_count = 255`), reset with 1 then 0; and the value 2 written
to the reset port of the zero-initialised device. -/
theorem reset_round_trip_witness :
    (sbdsp_write DSP_RESET 0 (sbdsp_write DSP_RESET 1
        (host_send [(0x14, 1), (0xFF, 2), (0x00, 1)] sbdsp_zero))).dma_enabled = false ∧
    (sbdsp_write DSP_RESET 0 (sbdsp_write DSP_RESET 1
        (host_send [(0x14, 1), (0xFF, 2), (0x00, 1)] sbdsp_zero))).outbox = 0xAA ∧
    ((2 : Nat) ≠ 0 ∧ (2 : Nat) ≠ 1) ∧
    sbdsp_write DSP_RESET 2 sbdsp_zero = sbdsp_zero :=
  ⟨(reset_round_trip (host_send [(0x14, 1), (0xFF, 2), (0x00, 1)] sbdsp_zero)).1.2.2.2.2.2.2.2.2.2,
    (reset_round_trip (host_send [(0x14, 1), (0xFF, 2), (0x00, 1)] sbdsp_zero)).1.2.1,
    by decide,
    (reset_round_trip sbdsp_zero).2.2 2 (by decide) (by decide)⟩

/-- C9: for every byte `b`, from every idle, non-reset state, after the host
has written opcode 0xE0 and then `b`, each once the steps have cleared
`dav_dsp`, and steps have run until `dav_dsp` is clear again (which is the case
exactly from one step after the opcode and two after the byte), the device is
idle, `dav_pc` is set, `outbox` holds `255 - b`, and a read of the read port
returns `255 - b`; `b = 0` gives `0xFF`. -/
theorem ident_returns_complement (s : sbdsp_t) (b : Nat) (hb : b < 256)
    (hr : s.reset_state = 0) (hc : s.current_command = 0) :
    (∀ k1 k2 : Nat, host_paced [(0xE0, k1), (b, k2)] s = true ↔ (1 ≤ k1 ∧ 2 ≤ k2)) ∧
    (∀ k1 k2 : Nat, host_paced [(0xE0, k1), (b, k2)] s = true →
      (host_send [(0xE0, k1), (b, k2)] s).current_command = 0 ∧
      (host_send [(0xE0, k1), (b, k2)] s).dav_dsp = false ∧
      (host_send [(0xE0, k1), (b, k2)] s).dav_pc = true ∧
      (host_send [(0xE0, k1), (b, k2)] s).outbox = 255 - b ∧
      (sbdsp_read DSP_READ (host_send [(0xE0, k1), (b, k2)] s)).1 = 255 - b ∧
      (b = 0 → (sbdsp_read DSP_READ (host_send [(0xE0, k1), (b, k2)] s)).1 = 0xFF)) :=
  ⟨fun k1 k2 => one_param_paced_iff s 0xE0 b k1 k2 hr hc (Or.inr (Or.inl rfl)),
   fun k1 k2 hpace => paced_ident s b k1 k2 hb hr hc hpace⟩

/-- C9 at a concrete session: opcode 0xE0 and the byte 0x00 sent to the
zero-initialised device; the read port returns 0xFF. -/
theorem ident_returns_complement_witness :
    ((0 : Nat) < 256 ∧ sbdsp_zero.reset_state = 0 ∧ sbdsp_zero.current_command = 0) ∧
    host_paced [(0xE0, 1), (0, 2)] sbdsp_zero = true ∧
    (sbdsp_read DSP_READ (host_send [(0xE0, 1), (0, 2)] sbdsp_zero)).1 = 0xFF :=
  ⟨by decide,
    ((ident_returns_complement sbdsp_zero 0 (by decide) (by decide) (by decide)).1 1 2).mpr
      (by decide),
    ((ident_returns_complement sbdsp_zero 0 (by decide) (by decide) (by decide)).2 1 2
      (by decide)).2.2.2.2.2 rfl⟩

/-- C10: with opcode 0xE1 latched (index 0), or pending in `inbox` of an idle
device so that the step latches it, the first protocol step puts the major
version 2 in `outbox` with `dav_pc` set and the command in progress; every
further step taken while `dav_pc` is still set leaves `outbox = 2` and the
command in progress; a read of the read port then returns 2 and clears
`dav_pc`, and the next step puts the minor version 1 in `outbox`, sets `dav_pc`
and returns to idle.  In any state inside the command with the major version
unread, a step leaves `outbox` as it is. -/
theorem get_version_two_bytes (s : sbdsp_t) (hr : s.reset_state = 0)
    (hl : (s.current_command = 0xE1 ∧ s.current_command_index = 0) ∨
      (s.current_command = 0 ∧ s.dav_dsp = true ∧ s.inbox = 0xE1)) :
    ((sbdsp_process s).outbox = DSP_VERSION_MAJOR ∧ (sbdsp_process s).dav_pc = true ∧
      (sbdsp_process s).current_command = DSP_VERSION) ∧
    (∀ k : Nat,
      (steps k (sbdsp_process s)).outbox = DSP_VERSION_MAJOR ∧
      (steps k (sbdsp_process s)).dav_pc = true ∧
      (steps k (sbdsp_process s)).current_command = DSP_VERSION) ∧
    (∀ k : Nat,
      (sbdsp_read DSP_READ (steps k (sbdsp_process s))).1 = DSP_VERSION_MAJOR ∧
      (sbdsp_read DSP_READ (steps k (sbdsp_process s))).2.dav_pc = false ∧
      (sbdsp_process (sbdsp_read DSP_READ (steps k (sbdsp_process s))).2).outbox
        = DSP_VERSION_MINOR ∧
      (sbdsp_process (sbdsp_read DSP_READ (steps k (sbdsp_process s))).2).dav_pc = true ∧
      (sbdsp_process (sbdsp_read DSP_READ (steps k (sbdsp_process s))).2).current_command = 0) ∧
    (∀ t : sbdsp_t, t.reset_state = 0 → t.current_command = DSP_VERSION →
      t.current_command_index ≠ 0 → t.dav_pc = true →
      (sbdsp_process t).outbox = t.outbox ∧ (sbdsp_process t).dav_pc = true ∧
      (sbdsp_process t).current_command = DSP_VERSION) := by
  obtain ⟨m1, m2, m3, m4, m5⟩ := process_version_major s hr hl
  refine ⟨⟨m5, m4, m2⟩, ?_, ?_, ?_⟩
  · intro k
    obtain ⟨-, u2, -, u4, u5⟩ := steps_version_unread k (sbdsp_process s) m1 m2 m3 m4
    exact ⟨u5.trans m5, u4, u2⟩
  · intro k
    obtain ⟨u1, u2, u3, u4, u5⟩ := steps_version_unread k (sbdsp_process s) m1 m2 m3 m4
    have hread : (sbdsp_read DSP_READ (steps k (sbdsp_process s)))
        = ((steps k (sbdsp_process s)).outbox,
            { steps k (sbdsp_process s) with dav_pc := false }) := by
      simp [sbdsp_read]
    rw [hread]
    have hmin := process_version_minor { steps k (sbdsp_process s) with dav_pc := false }
      u1 u2 (by show (steps k (sbdsp_process s)).current_command_index ≠ 0; omega) rfl
    exact ⟨u5.trans m5, rfl, hmin⟩
  · intro t tr tc tx tp
    rw [process_version_unread t tr tc tx tp]
    exact ⟨rfl, tp, tc⟩

/-- C10 at a concrete session: opcode 0xE1 written to the zero-initialised
device; three steps, a read, one more step. -/
theorem get_version_two_bytes_witness :
    ((sbdsp_write DSP_WRITE 0xE1 sbdsp_zero).reset_state = 0 ∧
      (sbdsp_write DSP_WRITE 0xE1 sbdsp_zero).current_command = 0 ∧
      (sbdsp_write DSP_WRITE 0xE1 sbdsp_zero).dav_dsp = true ∧
      (sbdsp_write DSP_WRITE 0xE1 sbdsp_zero).inbox = 0xE1) ∧
    (sbdsp_read DSP_READ
        (steps 2 (sbdsp_process (sbdsp_write DSP_WRITE 0xE1 sbdsp_zero)))).1 = DSP_VERSION_MAJOR ∧
    (sbdsp_process (sbdsp_read DSP_READ
        (steps 2 (sbdsp_process (sbdsp_write DSP_WRITE 0xE1 sbdsp_zero)))).2).outbox
      = DSP_VERSION_MINOR :=
  ⟨by decide,
    ((get_version_two_bytes (sbdsp_write DSP_WRITE 0xE1 sbdsp_zero) (by decide)
      (Or.inr (by decide))).2.2.1 2).1,
    ((get_version_two_bytes (sbdsp_write DSP_WRITE 0xE1 sbdsp_zero) (by decide)
      (Or.inr (by decide))).2.2.1 2).2.2.1⟩

/-- C14: for every non-zero opcode other than the fifteen the `switch` names,
one protocol step from an idle, non-reset state with that byte pending in
`inbox` ends with `current_command = 0` and `dav_dsp` clear; apart from these
two, the parameter index (set to 0 by the latch) and the busy flag (cleared at
the end of every step), no field changes: `outbox`, `dav_pc`, the test
register, the DMA parameters, the FIFO, the scheduled events and the interrupt
line are as before. -/
theorem unknown_opcode_discarded (s : sbdsp_t) (c : Nat)
    (hr : s.reset_state = 0) (hc : s.current_command = 0)
    (hd : s.dav_dsp = true) (hi : s.inbox = c) (h0 : c ≠ 0)
    (hn : c ≠ 0x14 ∧ c ≠ 0x1C ∧ c ≠ 0x40 ∧ c ≠ 0x48 ∧ c ≠ 0x90 ∧ c ≠ 0x91 ∧ c ≠ 0xD0 ∧
      c ≠ 0xD1 ∧ c ≠ 0xD3 ∧ c ≠ 0xD4 ∧ c ≠ 0xE0 ∧ c ≠ 0xE1 ∧ c ≠ 0xE4 ∧ c ≠ 0xE8 ∧ c ≠ 0xF2) :
    sbdsp_process s
      = { s with current_command := 0, current_command_index := 0, dav_dsp := false,
                 dsp_busy := false } ∧
    (sbdsp_process s).current_command = 0 ∧ (sbdsp_process s).dav_dsp = false ∧
    (sbdsp_process s).outbox = s.outbox ∧ (sbdsp_process s).dav_pc = s.dav_pc ∧
    (sbdsp_process s).test_register = s.test_register ∧
    (sbdsp_process s).dma_block_size = s.dma_block_size ∧
    (sbdsp_process s).dma_sample_count = s.dma_sample_count ∧
    (sbdsp_process s).dma_sample_count_rx = s.dma_sample_count_rx ∧
    (sbdsp_process s).autoinit = s.autoinit ∧ (sbdsp_process s).dma_enabled = s.dma_enabled ∧
    (sbdsp_process s).dma_interval = s.dma_interval ∧
    (sbdsp_process s).sample_rate = s.sample_rate ∧
    (sbdsp_process s).sample_step = s.sample_step ∧
    (sbdsp_process s).dma_buffer = s.dma_buffer ∧
    (sbdsp_process s).dma_buffer_head = s.dma_buffer_head ∧
    (sbdsp_process s).dma_buffer_tail = s.dma_buffer_tail ∧
    (sbdsp_process s).pic_events = s.pic_events ∧ (sbdsp_process s).pic_irq = s.pic_irq := by
  obtain ⟨n1, n2, n3, n4, n5, n6, n7, n8, n9, n10, n11, n12, n13, n14, n15⟩ := hn
  have h : sbdsp_process s
      = { s with current_command := 0, current_command_index := 0, dav_dsp := false,
                 dsp_busy := false } := by
    simp [sbdsp_process, hr, hc, hd, hi, h0, n1, n2, n3, n4, n5, n6, n7, n8, n9, n10, n11,
      n12, n13, n14, n15, DSP_DMA_PAUSE, DSP_DMA_RESUME, DSP_DMA_AUTO, DSP_DMA_HS_AUTO,
      DSP_SET_TIME_CONSTANT, DSP_DMA_BLOCK_SIZE, DSP_DMA_HS_SINGLE, DSP_DMA_SINGLE, DSP_IRQ,
      DSP_VERSION, DSP_IDENT, DSP_ENABLE_SPEAKER, DSP_DISABLE_SPEAKER, DSP_WRITETEST,
      DSP_READTEST]
  rw [h]
  simp

/-- C14 at a concrete state: the opcode 0x7F (ADPCM playback, which the
`switch` does not handle) written to the zero-initialised device. -/
theorem unknown_opcode_discarded_witness :
    ((sbdsp_write DSP_WRITE 0x7F sbdsp_zero).reset_state = 0 ∧
      (sbdsp_write DSP_WRITE 0x7F sbdsp_zero).current_command = 0 ∧
      (sbdsp_write DSP_WRITE 0x7F sbdsp_zero).dav_dsp = true ∧
      (sbdsp_write DSP_WRITE 0x7F sbdsp_zero).inbox = 0x7F) ∧
    (sbdsp_process (sbdsp_write DSP_WRITE 0x7F sbdsp_zero)).current_command = 0 ∧
    (sbdsp_process (sbdsp_write DSP_WRITE 0x7F sbdsp_zero)).dav_dsp = false :=
  ⟨by decide,
    (unknown_opcode_discarded (sbdsp_write DSP_WRITE 0x7F sbdsp_zero) 0x7F (by decide)
      (by decide) (by decide) (by decide) (by decide) (by decide)).2.1,
    (unknown_opcode_discarded (sbdsp_write DSP_WRITE 0x7F sbdsp_zero) 0x7F (by decide)
      (by decide) (by decide) (by decide) (by decide) (by decide)).2.2.1⟩

/-- C18: for every time-constant byte `tc`, the step that completes Set Time
Constant stores a 16-bit `sample_rate` (`1000000 / (256 - tc)` modulo `2^16`)
that is not zero, so neither division by it divides by zero, and the
`dma_interval` and `sample_factor` it stores are the untruncated quotients
`1000000 / sample_rate < 2^16` and `49716 / sample_rate + 5 < 2^8`. -/
theorem time_constant_divisions_safe (s : sbdsp_t) (tc : Nat) (htc : tc < 256)
    (hr : s.reset_state = 0) (hc : s.current_command = 0x40)
    (hx : s.current_command_index = 1) (hd : s.dav_dsp = true) (hi : s.inbox = tc) :
    (sbdsp_process s).sample_rate = (1000000 / (256 - tc)) % 65536 ∧
    (sbdsp_process s).sample_rate ≠ 0 ∧
    (sbdsp_process s).dma_interval = 1000000 / (sbdsp_process s).sample_rate ∧
    1000000 / (sbdsp_process s).sample_rate < 65536 ∧
    (sbdsp_process s).sample_factor = OUTPUT_SAMPLERATE / (sbdsp_process s).sample_rate + 5 ∧
    OUTPUT_SAMPLERATE / (sbdsp_process s).sample_rate + 5 < 256 := by
  have ha := rate_arith tc htc
  have hrate : (sbdsp_process s).sample_rate = (1000000 / (256 - tc)) % 65536 := by
    simp [sbdsp_process, hr, hc, hx, hd, hi, DSP_DMA_PAUSE, DSP_DMA_RESUME, DSP_DMA_AUTO,
      DSP_DMA_HS_AUTO, DSP_SET_TIME_CONSTANT]
  have hint : (sbdsp_process s).dma_interval
      = (1000000 / ((1000000 / (256 - tc)) % 65536)) % 65536 := by
    simp [sbdsp_process, hr, hc, hx, hd, hi, DSP_DMA_PAUSE, DSP_DMA_RESUME, DSP_DMA_AUTO,
      DSP_DMA_HS_AUTO, DSP_SET_TIME_CONSTANT]
  have hfac : (sbdsp_process s).sample_factor
      = (49716 / ((1000000 / (256 - tc)) % 65536) + 5) % 256 := by
    simp [sbdsp_process, hr, hc, hx, hd, hi, DSP_DMA_PAUSE, DSP_DMA_RESUME, DSP_DMA_AUTO,
      DSP_DMA_HS_AUTO, DSP_SET_TIME_CONSTANT, OUTPUT_SAMPLERATE]
  refine ⟨hrate, ?_, ?_, ?_, ?_, ?_⟩
  · rw [hrate]; exact ha.1
  · rw [hint, hrate]; exact Nat.mod_eq_of_lt ha.2.1
  · rw [hrate]; exact ha.2.1
  · rw [hfac, hrate]; exact Nat.mod_eq_of_lt ha.2.2.2
  · rw [hrate]; exact ha.2.2.2

/-- C18 at a concrete state: the byte 0xFF pending inside Set Time Constant
with the index at 1; the stored rate is `1000000 mod 65536 = 16960`. -/
theorem time_constant_divisions_safe_witness :
    ((0xFF : Nat) < 256 ∧ tc_pending_dev.reset_state = 0 ∧
      tc_pending_dev.current_command = 0x40 ∧ tc_pending_dev.current_command_index = 1 ∧
      tc_pending_dev.dav_dsp = true ∧ tc_pending_dev.inbox = 0xFF) ∧
    (sbdsp_process tc_pending_dev).sample_rate ≠ 0 ∧
    (sbdsp_process tc_pending_dev).dma_interval
      = 1000000 / (sbdsp_process tc_pending_dev).sample_rate :=
  ⟨by decide,
    (time_constant_divisions_safe tc_pending_dev 0xFF (by decide) (by decide) (by decide)
      (by decide) (by decide) (by decide)).2.1,
    (time_constant_divisions_safe tc_pending_dev 0xFF (by decide) (by decide) (by decide)
      (by decide) (by decide) (by decide)).2.2.1⟩

/-- The step after the high byte of a two-parameter command was written
consumes it and ends the command. -/
theorem second_param_done (v : sbdsp_t) (hi : Nat) (hr : v.reset_state = 0)
    (hx : v.current_command_index = 2)
    (hp : v.current_command = 0x48 ∨ v.current_command = 0x14) :
    (sbdsp_process (sbdsp_write DSP_WRITE hi v)).dav_dsp = false ∧
    (sbdsp_process (sbdsp_write DSP_WRITE hi v)).current_command = 0 := by
  rw [write_port_eq]
  constructor <;>
    rcases hp with h | h <;>
      simp [sbdsp_process, sbdsp_dma_enable, sbdsp_fifo_clear, PIC_AddEvent, hr, h, hx,
        DSP_DMA_PAUSE, DSP_DMA_RESUME, DSP_DMA_AUTO, DSP_DMA_HS_AUTO, DSP_SET_TIME_CONSTANT,
        DSP_DMA_BLOCK_SIZE, DSP_DMA_HS_SINGLE, DSP_DMA_SINGLE, DSP_IRQ, DSP_VERSION, DSP_IDENT,
        DSP_ENABLE_SPEAKER, DSP_DISABLE_SPEAKER, DSP_WRITETEST, DSP_READTEST] <;>
      split_ifs <;> simp_all

/-- C19: for each command with parameters (0x40, 0x48, 0x14, 0xE0, 0xE4), in
the state left by the step that latched the opcode, after the host writes the
first parameter byte `b` the first protocol step does not consume it: the state
after that step is the state after the write with only `current_command_index`
moved from 0 to 1, so `dav_dsp` is still set and `inbox` and every result field
are untouched; the second step clears `dav_dsp`.  For 0x48 and 0x14 the second
parameter byte is consumed, and the command ended, by the first step after it
is written. -/
theorem first_parameter_takes_two_steps (w : sbdsp_t) (b : Nat)
    (hr : w.reset_state = 0) (hd : w.dav_dsp = false) (hb : w.dsp_busy = false)
    (hx : w.current_command_index = 0)
    (hp : w.current_command = 0x40 ∨ w.current_command = 0x48 ∨
      w.current_command = 0x14 ∨ w.current_command = 0xE0 ∨ w.current_command = 0xE4) :
    sbdsp_write DSP_WRITE b w = { w with inbox := b, dav_dsp := true } ∧
    sbdsp_process (sbdsp_write DSP_WRITE b w)
      = { w with inbox := b, dav_dsp := true, current_command_index := 1 } ∧
    (sbdsp_process (sbdsp_process (sbdsp_write DSP_WRITE b w))).dav_dsp = false ∧
    ((w.current_command = 0x48 ∨ w.current_command = 0x14) → ∀ hi : Nat,
      (sbdsp_process (sbdsp_write DSP_WRITE hi
        (sbdsp_process (sbdsp_process (sbdsp_write DSP_WRITE b w))))).dav_dsp = false ∧
      (sbdsp_process (sbdsp_write DSP_WRITE hi
        (sbdsp_process (sbdsp_process (sbdsp_write DSP_WRITE b w))))).current_command = 0) := by
  have hw : sbdsp_write DSP_WRITE b w = { w with inbox := b, dav_dsp := true } := by
    rw [write_port_eq]
    simp [hd]
  have h1 : sbdsp_process (sbdsp_write DSP_WRITE b w)
      = { w with inbox := b, dav_dsp := true, current_command_index := 1,
                 dsp_busy := false } := by
    rw [hw]
    exact process_param_index0 { w with inbox := b, dav_dsp := true } hr rfl hx hp
  refine ⟨hw, ?_, ?_, ?_⟩
  · rw [h1]
    cases w
    simp_all
  · rw [h1]
    rcases hp with h | h | h | h | h
    · exact (one_param_done w b hr (Or.inl h)).1
    · exact (two_param_low_done w b hr (Or.inl h)).1
    · exact (two_param_low_done w b hr (Or.inr h)).1
    · exact (one_param_done w b hr (Or.inr (Or.inl h))).1
    · exact (one_param_done w b hr (Or.inr (Or.inr h))).1
  · intro h2 hi
    rw [h1]
    obtain ⟨-, -, d3, d4, d5⟩ := two_param_low_done w b hr h2
    exact second_param_done _ hi d3 d5 (by rw [d4]; exact h2)

/-- C19 at a concrete state: Set Block Size latched on the zero-initialised
device, then the bytes 0x00 and 0x04. -/
theorem first_parameter_takes_two_steps_witness :
    (latched_48_dev.reset_state = 0 ∧ latched_48_dev.dav_dsp = false ∧
      latched_48_dev.dsp_busy = false ∧ latched_48_dev.current_command_index = 0 ∧
      latched_48_dev.current_command = 0x48) ∧
    sbdsp_process (sbdsp_write DSP_WRITE 0x00 latched_48_dev)
      = { latched_48_dev with inbox := 0x00, dav_dsp := true, current_command_index := 1 } ∧
    (sbdsp_process (sbdsp_write DSP_WRITE 0x04
      (sbdsp_process (sbdsp_process (sbdsp_write DSP_WRITE 0x00 latched_48_dev))))).dav_dsp
        = false :=
  ⟨by decide,
    (first_parameter_takes_two_steps latched_48_dev 0x00 (by decide) (by decide) (by decide)
      (by decide) (Or.inr (Or.inl (by decide)))).2.1,
    ((first_parameter_takes_two_steps latched_48_dev 0x00 (by decide) (by decide) (by decide)
      (by decide) (Or.inr (Or.inl (by decide)))).2.2.2 (Or.inl (by decide)) 0x04).1⟩

/-- C20: with `head, tail < 1024`, `level()` never exceeds 1023; a push made at
level 1023 reports the overrun and makes the tail equal to the head, so that
`level()` is 0, `is_at_least_half_full` is false and a pop returns 0.  That is
the state after 1024 pushes into an empty FIFO with no pop: after 1023 pushes
the level is 1023, after 1024 it reads as empty. -/
theorem fifo_full_reads_empty (s : sbdsp_t)
    (hh : s.dma_buffer_head < 1024) (ht : s.dma_buffer_tail < 1024) :
    sbdsp_fifo_level s ≤ 1023 ∧
    (sbdsp_fifo_level s = 1023 → ∀ b : Nat,
      (sbdsp_fifo_rx b s).overrun_reports = s.overrun_reports + 1 ∧
      (sbdsp_fifo_rx b s).dma_buffer_tail = (sbdsp_fifo_rx b s).dma_buffer_head ∧
      sbdsp_fifo_level (sbdsp_fifo_rx b s) = 0 ∧
      sbdsp_fifo_half (sbdsp_fifo_rx b s) = false ∧
      ∀ (buf : Int → Nat) (len : Nat), (sbdsp_fifo_tx (sbdsp_fifo_rx b s) buf len).2.2 = 0) ∧
    (s.dma_buffer_head = s.dma_buffer_tail → ∀ bytes : Nat → Nat,
      sbdsp_fifo_level (fifo_push_seq bytes 1023 s) = 1023 ∧
      sbdsp_fifo_level (fifo_push_seq bytes 1024 s) = 0 ∧
      sbdsp_fifo_half (fifo_push_seq bytes 1024 s) = false ∧
      ∀ (buf : Int → Nat) (len : Nat),
        (sbdsp_fifo_tx (fifo_push_seq bytes 1024 s) buf len).2.2 = 0) := by
  have hl := fifo_level_eq s hh ht
  have hempty : ∀ t : sbdsp_t, sbdsp_fifo_level t = 0 →
      sbdsp_fifo_half t = false ∧
      ∀ (buf : Int → Nat) (len : Nat), (sbdsp_fifo_tx t buf len).2.2 = 0 := by
    intro t h0
    refine ⟨?_, ?_⟩
    · simp [sbdsp_fifo_half, h0, DSP_DMA_FIFO_SIZE]
    · intro buf len
      rw [fifo_tx_count, h0]
      exact Nat.zero_min len
  refine ⟨?_, ?_, ?_⟩
  · rw [hl]; omega
  · intro h1023 b
    have hlev : sbdsp_fifo_level (sbdsp_fifo_rx b s) = 0 := by
      rw [fifo_rx_level b s hh ht, h1023]
    refine ⟨?_, ?_, hlev, (hempty _ hlev).1, (hempty _ hlev).2⟩
    · rw [fifo_rx_overrun, h1023]
      simp
    · rw [fifo_rx_tail b s ht, fifo_rx_head]
      rw [hl] at h1023
      omega
  · intro he bytes
    have i1 := fifo_push_seq_indices bytes s ht 1023
    have i2 := fifo_push_seq_indices bytes s ht 1024
    have l1 : sbdsp_fifo_level (fifo_push_seq bytes 1023 s) = 1023 := by
      rw [fifo_level_eq _ (by rw [i1.1]; exact hh) (by rw [i1.2]; exact Nat.mod_lt _ (by norm_num)),
        i1.1, i1.2, he]
      omega
    have l2 : sbdsp_fifo_level (fifo_push_seq bytes 1024 s) = 0 := by
      rw [fifo_level_eq _ (by rw [i2.1]; exact hh) (by rw [i2.2]; exact Nat.mod_lt _ (by norm_num)),
        i2.1, i2.2, he]
      omega
    exact ⟨l1, l2, (hempty _ l2).1, (hempty _ l2).2⟩

/-- C20 at a concrete FIFO: empty with both indices at 1020, fed 1024 bytes. -/
theorem fifo_full_reads_empty_witness :
    (empty_dev.dma_buffer_head < 1024 ∧ empty_dev.dma_buffer_tail < 1024 ∧
      empty_dev.dma_buffer_head = empty_dev.dma_buffer_tail) ∧
    sbdsp_fifo_level (fifo_push_seq (fun k => k % 256) 1024 empty_dev) = 0 ∧
    (sbdsp_fifo_tx (fifo_push_seq (fun k => k % 256) 1024 empty_dev) mem_ee 4).2.2 = 0 :=
  ⟨by decide,
    ((fifo_full_reads_empty empty_dev (by decide) (by decide)).2.2 (by decide)
      (fun k => k % 256)).2.1,
    ((fifo_full_reads_empty empty_dev (by decide) (by decide)).2.2 (by decide)
      (fun k => k % 256)).2.2.2 mem_ee 4⟩

/-! ## DMA completion lemmas -/

/-- A push touches the ring, the tail and the overrun report, nothing else that
the completion callback looks at. -/
theorem fifo_rx_frame (b : Nat) (s : sbdsp_t) :
    (sbdsp_fifo_rx b s).dma_sample_count_rx = s.dma_sample_count_rx ∧
    (sbdsp_fifo_rx b s).dma_sample_count = s.dma_sample_count ∧
    (sbdsp_fifo_rx b s).autoinit = s.autoinit ∧
    (sbdsp_fifo_rx b s).dma_enabled = s.dma_enabled ∧
    (sbdsp_fifo_rx b s).pic_irq = s.pic_irq ∧
    (sbdsp_fifo_rx b s).pic_events = s.pic_events ∧
    (sbdsp_fifo_rx b s).dma_interval = s.dma_interval ∧
    (sbdsp_fifo_rx b s).dma_interval_trim = s.dma_interval_trim := by
  unfold sbdsp_fifo_rx
  simp only []
  split_ifs <;> exact ⟨rfl, rfl, rfl, rfl, rfl, rfl, rfl, rfl⟩

/-- The completion callback, branch by branch. -/
theorem dma_isr_cases (d : Nat) (s : sbdsp_t) :
    (sbdsp_dma_isr d s).dma_buffer = (sbdsp_fifo_rx (d % 256) s).dma_buffer ∧
    (sbdsp_dma_isr d s).dma_buffer_tail = (sbdsp_fifo_rx (d % 256) s).dma_buffer_tail ∧
    (sbdsp_dma_isr d s).dma_sample_count = s.dma_sample_count ∧
    (sbdsp_dma_isr d s).autoinit = s.autoinit ∧
    ((s.dma_sample_count_rx + 1) % 4294967296 ≤ s.dma_sample_count →
      (sbdsp_dma_isr d s).dma_sample_count_rx = (s.dma_sample_count_rx + 1) % 4294967296 ∧
      (sbdsp_dma_isr d s).pic_irq = s.pic_irq ∧
      (sbdsp_dma_isr d s).pic_events
        = s.pic_events ++ [(s.dma_interval : Int) + s.dma_interval_trim] ∧
      (sbdsp_dma_isr d s).dma_enabled = s.dma_enabled) ∧
    (¬ (s.dma_sample_count_rx + 1) % 4294967296 ≤ s.dma_sample_count →
      (sbdsp_dma_isr d s).pic_irq = true ∧
      (s.autoinit = true →
        (sbdsp_dma_isr d s).dma_sample_count_rx = 0 ∧
        (sbdsp_dma_isr d s).pic_events
          = s.pic_events ++ [(s.dma_interval : Int) + s.dma_interval_trim] ∧
        (sbdsp_dma_isr d s).dma_enabled = s.dma_enabled) ∧
      (s.autoinit = false →
        (sbdsp_dma_isr d s).dma_sample_count_rx = (s.dma_sample_count_rx + 1) % 4294967296 ∧
        (sbdsp_dma_isr d s).pic_events = [] ∧
        (sbdsp_dma_isr d s).dma_enabled = false)) := by
  obtain ⟨f1, f2, f3, f4, f5, f6, f7, f8⟩ := fifo_rx_frame (d % 256) s
  unfold sbdsp_dma_isr
  simp only []
  generalize sbdsp_fifo_rx (d % 256) s = p at f1 f2 f3 f4 f5 f6 f7 f8 ⊢
  rw [← f1, ← f2, ← f3, ← f4, ← f5, ← f6, ← f7, ← f8]
  cases ha : p.autoinit <;>
    by_cases hle : (p.dma_sample_count_rx + 1) % 4294967296 ≤ p.dma_sample_count <;>
      simp [PIC_AddEvent, PIC_ActivateIRQ, sbdsp_dma_disable, PIC_RemoveEvents, ha, hle]

set_option maxRecDepth 100000 in
/-- C16 (evaluation of the code where the claim fails): after a reset release,
DMA Single with the bytes `[0x02, 0x00]` and three pacing cycles, the device
rests with `dma_sample_count_rx = 3 > 2 = dma_sample_count`: the completion that
ended the block disabled pacing and left the counter where it was, where the
`autoinit` branch of the same callback sets it to 0.  After a reset release,
DMA Auto (0x1C), five pacing cycles, DMA Pause, Set Block Size `[0x01, 0x00]`
and DMA High-Speed Single (0x91), the device runs with pacing enabled,
`dma_sample_count = 1` and `dma_sample_count_rx = 5`, and its first completion
already ends the block (interrupt asserted, pacing disabled); DMA Single with
the same bytes from the same state starts with the counter at 0. -/
theorem counter_left_above_target :
    (single_done_dev.reset_state = 0 ∧
     single_done_dev.dma_sample_count = 2 ∧
     single_done_dev.dma_sample_count_rx = 3 ∧
     single_done_dev.dma_enabled = false ∧
     ¬ (single_done_dev.dma_sample_count_rx ≤ single_done_dev.dma_sample_count)) ∧
    (stale_counter_dev.reset_state = 0 ∧
     stale_counter_dev.dma_sample_count = 1 ∧
     stale_counter_dev.dma_sample_count_rx = 5 ∧
     stale_counter_dev.dma_enabled = true ∧
     stale_counter_dev.autoinit = false ∧
     stale_counter_dev.pic_irq = false ∧
     ¬ (stale_counter_dev.dma_sample_count_rx ≤ stale_counter_dev.dma_sample_count) ∧
     (dma_run (fun _ => 0x80) 1 stale_counter_dev).pic_irq = true ∧
     (dma_run (fun _ => 0x80) 1 stale_counter_dev).dma_enabled = false) ∧
    (host_paced [(0x14, 1), (0x01, 2), (0x00, 1)] paused_block_dev = true ∧
     (host_send [(0x14, 1), (0x01, 2), (0x00, 1)] paused_block_dev).dma_sample_count = 1 ∧
     (host_send [(0x14, 1), (0x01, 2), (0x00, 1)] paused_block_dev).dma_sample_count_rx = 0 ∧
     (host_send [(0x14, 1), (0x01, 2), (0x00, 1)] paused_block_dev).dma_enabled = true) := by
  decide

/-- One completion callback entered with `dma_sample_count_rx <= dma_sample_count`
keeps the target and leaves the counter at most one above it, and not above it
when `autoinit` is set; a reset release and a completed DMA Single command leave
the counter at 0. -/
theorem dma_counter_bound (s : sbdsp_t) (d : Nat)
    (h : s.dma_sample_count_rx ≤ s.dma_sample_count) :
    ((sbdsp_dma_isr d s).dma_sample_count = s.dma_sample_count ∧
     (sbdsp_dma_isr d s).dma_sample_count_rx ≤ s.dma_sample_count + 1 ∧
     (s.autoinit = true → (sbdsp_dma_isr d s).dma_sample_count_rx ≤ s.dma_sample_count) ∧
     (¬ (sbdsp_dma_isr d s).dma_sample_count_rx ≤ s.dma_sample_count →
       (sbdsp_dma_isr d s).dma_sample_count_rx = s.dma_sample_count + 1 ∧
       s.autoinit = false ∧ (sbdsp_dma_isr d s).dma_enabled = false)) ∧
    ((sbdsp_write DSP_RESET 0 (sbdsp_write DSP_RESET 1 s)).dma_sample_count_rx = 0 ∧
     (sbdsp_write DSP_RESET 0 (sbdsp_write DSP_RESET 1 s)).dma_sample_count = 0) ∧
    (∀ low high k1 k2 k3 : Nat, low < 256 → high < 256 →
      s.reset_state = 0 → s.current_command = 0 →
      host_paced [(0x14, k1), (low, k2), (high, k3)] s = true →
      (host_send [(0x14, k1), (low, k2), (high, k3)] s).dma_sample_count_rx = 0) := by
  obtain ⟨-, -, c3, -, c5, c6⟩ := dma_isr_cases d s
  refine ⟨⟨c3, ?_, ?_, ?_⟩, ?_, ?_⟩
  · by_cases hle : (s.dma_sample_count_rx + 1) % 4294967296 ≤ s.dma_sample_count
    · rw [(c5 hle).1]; omega
    · cases ha : s.autoinit
      · rw [((c6 hle).2.2 ha).1]; omega
      · rw [((c6 hle).2.1 ha).1]; omega
  · intro ha
    by_cases hle : (s.dma_sample_count_rx + 1) % 4294967296 ≤ s.dma_sample_count
    · rw [(c5 hle).1]; exact hle
    · rw [((c6 hle).2.1 ha).1]; omega
  · intro hgt
    by_cases hle : (s.dma_sample_count_rx + 1) % 4294967296 ≤ s.dma_sample_count
    · rw [(c5 hle).1] at hgt; exact absurd hle hgt
    · cases ha : s.autoinit
      · obtain ⟨q1, -, q3⟩ := (c6 hle).2.2 ha
        refine ⟨?_, rfl, q3⟩
        rw [q1]; omega
      · rw [((c6 hle).2.1 ha).1] at hgt
        omega
  · simp [sbdsp_write, sbdsp_reset, DSP_RESET, DSP_WRITE]
  · intro low high k1 k2 k3 hlow hhigh hr hc hpace
    exact (paced_dma_single s low high k1 k2 k3 hlow hhigh hr hc hpace).2.2.2.1

/-! ## Resampling loop lemmas -/

theorem mix_loop_count (cs : Bool) (buf : Int → Nat) (x step start : Nat) (n : Nat) :
    ∀ (i off : Nat) (smp : Nat → Int),
      i ≤ (mix_loop cs buf x step start n i off smp).1 ∧
      (mix_loop cs buf x step start n i off smp).1 ≤ i + n := by
  induction n with
  | zero => intro i off smp; exact ⟨le_refl _, le_refl _⟩
  | succ n ih =>
    intro i off smp
    simp only [mix_loop]
    split_ifs with hb
    · exact ⟨le_refl _, by omega⟩
    · have h := ih (i + 1) ((off + step) % 18446744073709551616)
        (fun k => if k = 2 * i + 1 then pcm_sample cs (buf (mix_index off start : Int))
          else if k = 2 * i + 0 then pcm_sample cs (buf (mix_index off start : Int)) else smp k)
      exact ⟨by omega, by omega⟩

theorem mix_loop_offset (cs : Bool) (buf : Int → Nat) (x step start : Nat) (n : Nat) :
    ∀ (i off : Nat) (smp : Nat → Int),
      (mix_loop cs buf x step start n i off smp).2.1
        = mix_offset step ((mix_loop cs buf x step start n i off smp).1 - i) off := by
  induction n with
  | zero => intro i off smp; simp [mix_loop, mix_offset]
  | succ n ih =>
    intro i off smp
    simp only [mix_loop]
    split_ifs with hb
    · simp [mix_offset]
    · have h := ih (i + 1) ((off + step) % 18446744073709551616)
        (fun k => if k = 2 * i + 1 then pcm_sample cs (buf (mix_index off start : Int))
          else if k = 2 * i + 0 then pcm_sample cs (buf (mix_index off start : Int)) else smp k)
      have hc := mix_loop_count cs buf x step start n (i + 1)
        ((off + step) % 18446744073709551616)
        (fun k => if k = 2 * i + 1 then pcm_sample cs (buf (mix_index off start : Int))
          else if k = 2 * i + 0 then pcm_sample cs (buf (mix_index off start : Int)) else smp k)
      rw [h]
      generalize (mix_loop cs buf x step start n (i + 1) ((off + step) % 18446744073709551616)
        (fun k => if k = 2 * i + 1 then pcm_sample cs (buf (mix_index off start : Int))
          else if k = 2 * i + 0 then pcm_sample cs (buf (mix_index off start : Int))
          else smp k)).1 = c at hc ⊢
      have hsub : c - i = (c - (i + 1)) + 1 := by omega
      rw [hsub]
      rfl

theorem mix_loop_untouched (cs : Bool) (buf : Int → Nat) (x step start : Nat) (n : Nat) :
    ∀ (i off : Nat) (smp : Nat → Int) (k : Nat), k < 2 * i →
      (mix_loop cs buf x step start n i off smp).2.2 k = smp k := by
  induction n with
  | zero => intro i off smp k _; rfl
  | succ n ih =>
    intro i off smp k hk
    simp only [mix_loop]
    split_ifs with hb
    · rfl
    · rw [ih (i + 1) _ _ k (by omega)]
      have h1 : k ≠ 2 * i + 1 := by omega
      have h0 : k ≠ 2 * i := by omega
      simp [h1, h0]

theorem mix_loop_samples (cs : Bool) (buf : Int → Nat) (x step start : Nat) (n : Nat) :
    ∀ (i off : Nat) (smp : Nat → Int) (j : Nat), i ≤ j →
      j < (mix_loop cs buf x step start n i off smp).1 →
      mix_index (mix_offset step (j - i) off) start < x ∧
      (mix_loop cs buf x step start n i off smp).2.2 (2 * j)
        = pcm_sample cs (buf (mix_index (mix_offset step (j - i) off) start : Int)) ∧
      (mix_loop cs buf x step start n i off smp).2.2 (2 * j + 1)
        = pcm_sample cs (buf (mix_index (mix_offset step (j - i) off) start : Int)) := by
  induction n with
  | zero => intro i off smp j h1 h2; simp only [mix_loop] at h2; omega
  | succ n ih =>
    intro i off smp j h1 h2
    simp only [mix_loop] at h2 ⊢
    split_ifs at h2 ⊢ with hb
    · simp only [] at h2; omega
    · by_cases hji : j = i
      · subst hji
        rw [mix_loop_untouched cs buf x step start n (j + 1) _ _ (2 * j) (by omega),
          mix_loop_untouched cs buf x step start n (j + 1) _ _ (2 * j + 1) (by omega)]
        simp only [Nat.sub_self, mix_offset]
        refine ⟨by omega, ?_, ?_⟩
        · have h1 : 2 * j ≠ 2 * j + 1 := by omega
          simp [h1]
        · simp
      · have h := ih (i + 1) ((off + step) % 18446744073709551616) _ j (by omega) h2
        have hsub : j - i = (j - (i + 1)) + 1 := by omega
        rw [hsub]
        exact h

theorem mix_loop_exit (cs : Bool) (buf : Int → Nat) (x step start : Nat) (n : Nat) :
    ∀ (i off : Nat) (smp : Nat → Int),
      (mix_loop cs buf x step start n i off smp).1 < i + n →
      x ≤ mix_index (mix_loop cs buf x step start n i off smp).2.1 start := by
  induction n with
  | zero => intro i off smp h; simp only [mix_loop] at h; omega
  | succ n ih =>
    intro i off smp h
    simp only [mix_loop] at h ⊢
    split_ifs at h ⊢ with hb
    · exact hb
    · exact ih (i + 1) _ _ (by omega)

theorem mix_loop_breaks (cs : Bool) (buf : Int → Nat) (x step start : Nat) (n : Nat) :
    ∀ (i off : Nat) (smp : Nat → Int) (m : Nat), m < n →
      x ≤ mix_index (mix_offset step m off) start →
      (mix_loop cs buf x step start n i off smp).1 ≤ i + m := by
  induction n with
  | zero => intro i off smp m hm; omega
  | succ n ih =>
    intro i off smp m hm hx
    simp only [mix_loop]
    split_ifs with hb
    · exact Nat.le_add_right i m
    · cases m with
      | zero => exact absurd hx hb
      | succ m =>
        have h := ih (i + 1) ((off + step) % 18446744073709551616)
          (fun k => if k = 2 * i + 1 then pcm_sample cs (buf (mix_index off start : Int))
            else if k = 2 * i + 0 then pcm_sample cs (buf (mix_index off start : Int))
            else smp k) m (by omega) hx
        omega

/-- The offset after `j` additions, in closed form. -/
theorem mix_offset_closed (step : Nat) (j : Nat) :
    ∀ off : Nat, off < 18446744073709551616 →
      mix_offset step j off = (off + j * step) % 18446744073709551616 := by
  induction j with
  | zero => intro off h; simp [mix_offset, Nat.mod_eq_of_lt h]
  | succ j ih =>
    intro off h
    simp only [mix_offset]
    rw [ih _ (Nat.mod_lt _ (by norm_num)), Nat.succ_mul]
    generalize j * step = p
    omega

/-! ## Mixer lemmas -/

theorem fifo_tx_frame (s : sbdsp_t) (buf : Int → Nat) (len : Nat) :
    (sbdsp_fifo_tx s buf len).1.sample_step = s.sample_step ∧
    (sbdsp_fifo_tx s buf len).1.sample_offset = s.sample_offset ∧
    (sbdsp_fifo_tx s buf len).1.sample_factor = s.sample_factor := by
  unfold sbdsp_fifo_tx
  simp only []
  split_ifs <;> exact ⟨rfl, rfl, rfl⟩

/-- The loop call of `sbdsp_mix` in terms of the state at entry. -/
theorem mix_resample_eq (cs : Bool) (stack : Int → Nat) (buffer : audio_buffer_t)
    (s : sbdsp_t) :
    mix_resample cs stack buffer s
      = mix_loop cs (sbdsp_fifo_tx s stack 4).2.1 (min (sbdsp_fifo_level s) 4) s.sample_step
          (s.sample_offset / 65536) (min (sbdsp_fifo_level s) 4 * s.sample_factor) 0
          s.sample_offset buffer.samples := by
  obtain ⟨f1, f2, f3⟩ := fifo_tx_frame s stack 4
  unfold mix_resample
  simp only []
  rw [f1, f2, f3, fifo_tx_count]

theorem mix_dsp_disabled (cs : Bool) (stack : Int → Nat) (buffer : audio_buffer_t)
    (s : sbdsp_t) (h : s.dma_enabled = false) :
    sbdsp_mix_dsp cs stack buffer s
      = some (s, { buffer with sample_count := 1,
                               samples := fun k => if k < 1 * 2 then 0 else buffer.samples k }) := by
  simp [sbdsp_mix_dsp, h]

theorem mix_dsp_waits (cs : Bool) (stack : Int → Nat) (buffer : audio_buffer_t)
    (s : sbdsp_t) (h : s.dma_enabled = true) (h0 : sbdsp_fifo_level s = 0) :
    sbdsp_mix_dsp cs stack buffer s = none := by
  simp [sbdsp_mix_dsp, h, h0]

/-- With pacing enabled and a byte in the FIFO the DSP part returns; its frame
holds the loop's samples, or one silent sample if the loop produced none. -/
theorem mix_dsp_enabled (cs : Bool) (stack : Int → Nat) (buffer : audio_buffer_t)
    (s : sbdsp_t) (h : s.dma_enabled = true) (h0 : sbdsp_fifo_level s ≠ 0) :
    ∃ (s' : sbdsp_t) (g : audio_buffer_t),
      sbdsp_mix_dsp cs stack buffer s = some (s', g) ∧
      s'.sample_offset = (mix_resample cs stack buffer s).2.1 ∧
      s'.dma_buffer_head = (sbdsp_fifo_tx s stack 4).1.dma_buffer_head ∧
      s'.dma_buffer_tail = (sbdsp_fifo_tx s stack 4).1.dma_buffer_tail ∧
      g.sample_count
        = (if (mix_resample cs stack buffer s).1 = 0 then 1
           else (mix_resample cs stack buffer s).1) ∧
      ((mix_resample cs stack buffer s).1 ≠ 0 →
        g.samples = (mix_resample cs stack buffer s).2.2) ∧
      ((mix_resample cs stack buffer s).1 = 0 → g.samples 0 = 0 ∧ g.samples 1 = 0) := by
  have hb : mix_resample cs stack { buffer with sample_count := 0 } s
      = mix_resample cs stack buffer s := rfl
  unfold sbdsp_mix_dsp
  simp only [h, h0, if_true, if_false, hb]
  by_cases hz : (mix_resample cs stack buffer s).1 = 0
  · simp only [hz, if_true]
    exact ⟨_, _, rfl, rfl, rfl, rfl, rfl, fun hne => absurd rfl hne, fun _ => ⟨rfl, rfl⟩⟩
  · simp only [hz, if_false]
    exact ⟨_, _, rfl, rfl, rfl, rfl, rfl, fun _ => rfl, fun he => False.elim he⟩

/-- The whole of `sbdsp_mix` from its DSP part. -/
theorem mix_of_dsp (cs : Bool) (stack : Int → Nat) (opl : Nat → Nat → Int)
    (buffer : audio_buffer_t) (s s' : sbdsp_t) (g : audio_buffer_t)
    (h : sbdsp_mix_dsp cs stack buffer s = some (s', g)) :
    sbdsp_mix cs stack opl buffer s
      = some (s', { g with samples := (fun k =>
          if k < g.sample_count * 2 then to_int16 (g.samples k + opl g.sample_count k)
          else g.samples k) }) := by
  unfold sbdsp_mix
  rw [h]

theorem mix_of_dsp_none (cs : Bool) (stack : Int → Nat) (opl : Nat → Nat → Int)
    (buffer : audio_buffer_t) (s : sbdsp_t)
    (h : sbdsp_mix_dsp cs stack buffer s = none) :
    sbdsp_mix cs stack opl buffer s = none := by
  unfold sbdsp_mix
  rw [h]

theorem to_int16_of_range (v : Int) (h1 : -32768 ≤ v) (h2 : v ≤ 32767) : to_int16 v = v := by
  unfold to_int16
  omega

/-- C11: with `dma_enabled = false`, whatever the FIFO holds, `sbdsp_mix`
returns with the device state exactly as it was (FIFO head and tail and
`sample_offset` included) and a frame of `sample_count = 1`; the DSP's own
contribution to that sample is 0 in both channels, so each delivered channel is
the secondary source's sample (converted to `int16_t`, i.e. the sample itself
when it is a 16-bit value). -/
theorem mix_disabled_is_silent (cs : Bool) (stack : Int → Nat) (opl : Nat → Nat → Int)
    (buffer : audio_buffer_t) (s : sbdsp_t) (h : s.dma_enabled = false) :
    ∃ (g f : audio_buffer_t),
      sbdsp_mix_dsp cs stack buffer s = some (s, g) ∧
      g.sample_count = 1 ∧ g.samples 0 = 0 ∧ g.samples 1 = 0 ∧
      sbdsp_mix cs stack opl buffer s = some (s, f) ∧
      f.sample_count = 1 ∧
      f.samples 0 = to_int16 (opl 1 0) ∧ f.samples 1 = to_int16 (opl 1 1) ∧
      (∀ k, k < 2 → -32768 ≤ opl 1 k → opl 1 k ≤ 32767 → f.samples k = opl 1 k) := by
  have hd := mix_dsp_disabled cs stack buffer s h
  refine ⟨_, _, hd, rfl, rfl, rfl, mix_of_dsp cs stack opl buffer s s _ hd, rfl, ?_, ?_, ?_⟩
  · simp
  · simp
  · intro k hk h1 h2
    have hk2 : k < 1 * 2 := by omega
    simp only [hk2, if_true, zero_add]
    exact to_int16_of_range _ h1 h2

/-- C11 at a concrete state: pacing off, four bytes waiting in the FIFO across
the end of the ring, the secondary source delivering 1000 and -2000. -/
theorem mix_disabled_is_silent_witness :
    wrap_dev.dma_enabled = false ∧
    ∃ (g f : audio_buffer_t),
      sbdsp_mix_dsp true mem_ee frame_zero wrap_dev = some (wrap_dev, g) ∧
      g.sample_count = 1 ∧ g.samples 0 = 0 ∧ g.samples 1 = 0 ∧
      sbdsp_mix true mem_ee opl_sample frame_zero wrap_dev = some (wrap_dev, f) ∧
      f.sample_count = 1 ∧
      f.samples 0 = to_int16 (opl_sample 1 0) ∧ f.samples 1 = to_int16 (opl_sample 1 1) ∧
      (∀ k, k < 2 → -32768 ≤ opl_sample 1 k → opl_sample 1 k ≤ 32767 →
        f.samples k = opl_sample 1 k) :=
  ⟨by decide, mix_disabled_is_silent true mem_ee opl_sample frame_zero wrap_dev (by decide)⟩

/-- C12: `sbdsp_mix` returns exactly when pacing is disabled or the FIFO is not
empty, and the frame it then delivers has
`1 <= sample_count <= max(1, bytes_pulled * sample_factor)` with
`bytes_pulled = min(level, 4)`, whatever `sample_factor` and `sample_step`
are. -/
theorem mix_frame_never_empty (cs : Bool) (stack : Int → Nat) (opl : Nat → Nat → Int)
    (buffer : audio_buffer_t) (s : sbdsp_t) :
    ((sbdsp_mix cs stack opl buffer s).isSome = true ↔
      (s.dma_enabled = false ∨ sbdsp_fifo_level s ≠ 0)) ∧
    (∀ (s' : sbdsp_t) (f : audio_buffer_t), sbdsp_mix cs stack opl buffer s = some (s', f) →
      1 ≤ f.sample_count ∧
      f.sample_count ≤ max 1 (min (sbdsp_fifo_level s) 4 * s.sample_factor)) := by
  cases hen : s.dma_enabled
  · have hd := mix_dsp_disabled cs stack buffer s hen
    have hm := mix_of_dsp cs stack opl buffer s s _ hd
    refine ⟨?_, ?_⟩
    · rw [hm]; simp
    · intro s' f hf
      rw [hm] at hf
      simp only [Option.some.injEq, Prod.mk.injEq] at hf
      rw [← hf.2]
      exact ⟨le_refl 1, le_max_left _ _⟩
  · by_cases h0 : sbdsp_fifo_level s = 0
    · have hm := mix_of_dsp_none cs stack opl buffer s (mix_dsp_waits cs stack buffer s hen h0)
      refine ⟨?_, ?_⟩
      · rw [hm]; simp [h0]
      · intro s' f hf
        rw [hm] at hf
        exact absurd hf (by simp)
    · obtain ⟨t, g, hg, -, -, -, hcount, -, -⟩ := mix_dsp_enabled cs stack buffer s hen h0
      have hm := mix_of_dsp cs stack opl buffer s t g hg
      have hc := mix_loop_count cs (sbdsp_fifo_tx s stack 4).2.1 (min (sbdsp_fifo_level s) 4)
        s.sample_step (s.sample_offset / 65536) (min (sbdsp_fifo_level s) 4 * s.sample_factor)
        0 s.sample_offset buffer.samples
      rw [← mix_resample_eq] at hc
      refine ⟨?_, ?_⟩
      · rw [hm]; simp [h0]
      · intro s' f hf
        rw [hm] at hf
        simp only [Option.some.injEq, Prod.mk.injEq] at hf
        rw [← hf.2]
        show 1 ≤ g.sample_count ∧ g.sample_count ≤ _
        rw [hcount]
        split_ifs with hz
        · exact ⟨le_refl 1, le_max_left _ _⟩
        · refine ⟨by omega, ?_⟩
          have := hc.2
          exact le_trans (by omega) (le_max_right _ _)

/-- C12 at a concrete state: pacing on, four bytes in the FIFO,
`sample_factor = 0`: the loop produces nothing and the frame holds one
sample. -/
theorem mix_frame_never_empty_witness :
    (sbdsp_mix true mem_ee opl_sample frame_zero playing_dev_no_factor).isSome = true ∧
    (∀ (s' : sbdsp_t) (f : audio_buffer_t),
      sbdsp_mix true mem_ee opl_sample frame_zero playing_dev_no_factor = some (s', f) →
      1 ≤ f.sample_count ∧
      f.sample_count ≤ max 1 (min (sbdsp_fifo_level playing_dev_no_factor) 4
        * playing_dev_no_factor.sample_factor)) :=
  ⟨(mix_frame_never_empty true mem_ee opl_sample frame_zero playing_dev_no_factor).1.mpr
      (Or.inr (by decide)),
    (mix_frame_never_empty true mem_ee opl_sample frame_zero playing_dev_no_factor).2⟩

theorem pcm_sample_eq (cs : Bool) (b : Nat) (hb : b < 256) :
    pcm_sample cs b = ((b : Int) - 128) * 256 ∧
    -32768 ≤ ((b : Int) - 128) * 256 ∧ ((b : Int) - 128) * 256 ≤ 32512 := by
  unfold pcm_sample char_value to_int16
  cases cs <;> split_ifs <;> omega

theorem mix_index_start (off : Nat) : mix_index off (off / 65536) = 0 := by
  unfold mix_index
  omega

/-- Every byte of the caller's memory after a pop is a byte, if the ring and
the memory held bytes. -/
theorem fifo_tx_bytes (s : sbdsp_t) (stack : Int → Nat) (len : Nat)
    (hring : ∀ i, s.dma_buffer i < 256) (hstack : ∀ a, stack a < 256) :
    ∀ a, (sbdsp_fifo_tx s stack len).2.1 a < 256 := by
  have hcopy : ∀ (mem : Int → Nat) (dst : Int) (start n : Nat), (∀ a, mem a < 256) →
      ∀ a, memcpy mem dst s.dma_buffer start n a < 256 := by
    intro mem dst start n hmem a
    show (if dst ≤ a ∧ a < dst + (n : Int) then s.dma_buffer (start + (a - dst).toNat)
      else mem a) < 256
    split_ifs
    · exact hring _
    · exact hmem a
  intro a
  rw [fifo_tx_memory]
  split_ifs
  · exact hstack a
  · exact hcopy _ _ _ _ hstack a
  · exact hcopy _ _ _ _ (hcopy _ _ _ _ hstack) a

/-- A pop of up to four bytes from a non-empty FIFO always delivers the oldest
byte at position 0, also when the range wraps. -/
theorem fifo_tx_first_byte (s : sbdsp_t) (stack : Int → Nat)
    (hh : s.dma_buffer_head < 1024) (ht : s.dma_buffer_tail < 1024)
    (hl : sbdsp_fifo_level s ≠ 0) :
    (sbdsp_fifo_tx s stack 4).2.1 0 = s.dma_buffer s.dma_buffer_head := by
  have hlev := fifo_level_eq s hh ht
  rw [fifo_tx_memory]
  have hm : min (sbdsp_fifo_level s) 4 ≠ 0 := by omega
  have hm4 : min (sbdsp_fifo_level s) 4 ≤ 4 := min_le_right _ _
  rw [if_neg hm]
  generalize min (sbdsp_fifo_level s) 4 = n at hm hm4
  split_ifs with hc
  · rw [memcpy_inside _ _ _ _ _ _ (by omega) (by omega)]
    simp
  · rw [memcpy_outside _ _ _ _ _ _ (by omega), memcpy_inside _ _ _ _ _ _ (by omega) (by omega)]
    simp

theorem mix_loop_first (cs : Bool) (buf : Int → Nat) (x step start : Nat) (n : Nat)
    (i off : Nat) (smp : Nat → Int) (hn : 1 ≤ n) (hy : mix_index off start < x) :
    i + 1 ≤ (mix_loop cs buf x step start n i off smp).1 := by
  cases n with
  | zero => omega
  | succ n =>
    simp only [mix_loop]
    rw [if_neg (by omega)]
    exact (mix_loop_count cs buf x step start n (i + 1) _ _).1

/-- What the loop of `sbdsp_mix` writes, in terms of the local array `buf` as
the pop left it: with pacing enabled and a non-zero `sample_factor`, for signed
and unsigned `char` alike, every produced sample `i` has
`left = right = (buf[y] - 128) * 256`, a value in `-32768..32512`, for the
source index `y < min(level, 4) <= 4` used for `i`; the first sample uses the
oldest byte of the FIFO. -/
theorem mix_samples_are_biased_bytes (cs : Bool) (stack : Int → Nat) (buffer : audio_buffer_t)
    (s : sbdsp_t) (hen : s.dma_enabled = true) (hl : sbdsp_fifo_level s ≠ 0)
    (hh : s.dma_buffer_head < 1024) (ht : s.dma_buffer_tail < 1024)
    (hring : ∀ i, s.dma_buffer i < 256) (hstack : ∀ a, stack a < 256)
    (hsf : s.sample_factor ≠ 0) :
    ∃ (s' : sbdsp_t) (g : audio_buffer_t),
      sbdsp_mix_dsp cs stack buffer s = some (s', g) ∧
      1 ≤ g.sample_count ∧ min (sbdsp_fifo_level s) 4 ≤ 4 ∧
      (∀ i, i < g.sample_count →
        mix_index (mix_offset s.sample_step i s.sample_offset) (s.sample_offset / 65536)
          < min (sbdsp_fifo_level s) 4 ∧
        g.samples (2 * i)
          = (((sbdsp_fifo_tx s stack 4).2.1
              (mix_index (mix_offset s.sample_step i s.sample_offset)
                (s.sample_offset / 65536) : Int) : Int) - 128) * 256 ∧
        g.samples (2 * i + 1) = g.samples (2 * i) ∧
        -32768 ≤ g.samples (2 * i) ∧ g.samples (2 * i) ≤ 32512) ∧
      g.samples 0 = ((s.dma_buffer s.dma_buffer_head : Int) - 128) * 256 ∧
      g.samples 1 = ((s.dma_buffer s.dma_buffer_head : Int) - 128) * 256 := by
  obtain ⟨t, g, hg, -, -, -, hcount, hsmp, -⟩ := mix_dsp_enabled cs stack buffer s hen hl
  have hx1 : 1 ≤ min (sbdsp_fifo_level s) 4 := by omega
  have hbound : 1 ≤ min (sbdsp_fifo_level s) 4 * s.sample_factor :=
    Nat.mul_pos hx1 (Nat.pos_of_ne_zero hsf)
  have hfirst := mix_loop_first cs (sbdsp_fifo_tx s stack 4).2.1 (min (sbdsp_fifo_level s) 4)
    s.sample_step (s.sample_offset / 65536) (min (sbdsp_fifo_level s) 4 * s.sample_factor)
    0 s.sample_offset buffer.samples hbound (by rw [mix_index_start]; omega)
  have hsamples := mix_loop_samples cs (sbdsp_fifo_tx s stack 4).2.1
    (min (sbdsp_fifo_level s) 4) s.sample_step (s.sample_offset / 65536)
    (min (sbdsp_fifo_level s) 4 * s.sample_factor) 0 s.sample_offset buffer.samples
  rw [← mix_resample_eq] at hfirst hsamples
  have hne : (mix_resample cs stack buffer s).1 ≠ 0 := by omega
  rw [if_neg hne] at hcount
  have hgs := hsmp hne
  have hbytes := fifo_tx_bytes s stack 4 hring hstack
  have hall : ∀ i, i < g.sample_count →
      mix_index (mix_offset s.sample_step i s.sample_offset) (s.sample_offset / 65536)
        < min (sbdsp_fifo_level s) 4 ∧
      g.samples (2 * i)
        = (((sbdsp_fifo_tx s stack 4).2.1
            (mix_index (mix_offset s.sample_step i s.sample_offset)
              (s.sample_offset / 65536) : Int) : Int) - 128) * 256 ∧
      g.samples (2 * i + 1) = g.samples (2 * i) ∧
      -32768 ≤ g.samples (2 * i) ∧ g.samples (2 * i) ≤ 32512 := by
    intro i hi
    obtain ⟨y1, y2, y3⟩ := hsamples i (Nat.zero_le i) (by rw [← hcount]; exact hi)
    rw [Nat.sub_zero] at y1 y2 y3
    obtain ⟨p1, p2, p3⟩ := pcm_sample_eq cs _ (hbytes
      (mix_index (mix_offset s.sample_step i s.sample_offset) (s.sample_offset / 65536) : Int))
    rw [hgs, y2, y3, p1]
    exact ⟨y1, rfl, rfl, p2, p3⟩
  have h0 := hall 0 (by omega)
  have hidx : mix_index (mix_offset s.sample_step 0 s.sample_offset) (s.sample_offset / 65536)
      = 0 := mix_index_start s.sample_offset
  rw [hidx] at h0
  have hb0 := fifo_tx_first_byte s stack hh ht hl
  simp only [Nat.mul_zero, Nat.zero_add, Nat.cast_zero] at h0
  rw [hb0] at h0
  refine ⟨t, g, hg, by omega, min_le_right _ _, hall, h0.2.1, ?_⟩
  rw [h0.2.2.1, h0.2.1]

/-- Where the pulled range does not run past the end of the ring, `buf` holds
the pulled bytes, so every produced sample is `(b - 128) * 256` for the FIFO
byte `b` at the source index. -/
theorem mix_samples_when_not_wrapping (cs : Bool) (stack : Int → Nat) (buffer : audio_buffer_t)
    (s : sbdsp_t) (hen : s.dma_enabled = true) (hl : sbdsp_fifo_level s ≠ 0)
    (hh : s.dma_buffer_head < 1024) (ht : s.dma_buffer_tail < 1024)
    (hring : ∀ i, s.dma_buffer i < 256) (hstack : ∀ a, stack a < 256)
    (hsf : s.sample_factor ≠ 0)
    (hfit : s.dma_buffer_head + min (sbdsp_fifo_level s) 4 ≤ 1024) :
    ∃ (s' : sbdsp_t) (g : audio_buffer_t),
      sbdsp_mix_dsp cs stack buffer s = some (s', g) ∧
      (∀ i, i < g.sample_count →
        g.samples (2 * i)
          = ((s.dma_buffer ((s.dma_buffer_head
              + mix_index (mix_offset s.sample_step i s.sample_offset)
                  (s.sample_offset / 65536)) % 1024) : Int) - 128) * 256 ∧
        g.samples (2 * i + 1) = g.samples (2 * i)) := by
  obtain ⟨t, g, hg, -, -, hall, -, -⟩ :=
    mix_samples_are_biased_bytes cs stack buffer s hen hl hh ht hring hstack hsf
  refine ⟨t, g, hg, ?_⟩
  intro i hi
  obtain ⟨y1, y2, y3, -, -⟩ := hall i hi
  have hbuf := (fifo_tx_contiguous s stack 4 hh hfit).1 _ y1
  exact ⟨by rw [y2, hbuf], y3⟩

set_option maxRecDepth 100000 in
/-- C15 (evaluation of the code where the claim fails): pacing on, 22727 Hz,
the four bytes `18, 19, 0, 1` buffered across the end of the ring
(`head = 1022`, `tail = 2`).  The pull leaves `buf[2]` as the stack held it
(`0xEE`) instead of the pulled byte 0; nine samples are produced; sample 5 uses
the source index 2, and its left cell (cell 10) is `(0xEE - 128) * 256 = 28160`
with `char` signed or unsigned (and `-28416` when the stack held `0x11`), where
the pulled byte 0 gives `(0 - 128) * 256 = -32768`.  Samples 0 and 3, taken
from the indices 0 and 1, are as the claim says. -/
theorem mix_wrapping_pull_uses_stale_bytes :
    (sbdsp_fifo_level playing_dev = 4 ∧
     playing_dev.dma_buffer ((1022 + 0) % 1024) = 18 ∧
     playing_dev.dma_buffer ((1022 + 1) % 1024) = 19 ∧
     playing_dev.dma_buffer ((1022 + 2) % 1024) = 0 ∧
     (sbdsp_fifo_tx playing_dev mem_ee 4).2.2 = 4 ∧
     (sbdsp_fifo_tx playing_dev mem_ee 4).2.1 2 = 0xEE) ∧
    (mix_index (mix_offset playing_dev.sample_step 0 playing_dev.sample_offset)
        (playing_dev.sample_offset / 65536) = 0 ∧
     mix_index (mix_offset playing_dev.sample_step 3 playing_dev.sample_offset)
        (playing_dev.sample_offset / 65536) = 1 ∧
     mix_index (mix_offset playing_dev.sample_step 5 playing_dev.sample_offset)
        (playing_dev.sample_offset / 65536) = 2) ∧
    ((sbdsp_mix_dsp true mem_ee frame_zero playing_dev).map (fun r => r.2.sample_count)
        = some 9 ∧
     (sbdsp_mix_dsp true mem_ee frame_zero playing_dev).map (fun r => r.2.samples 0)
        = some (((18 : Int) - 128) * 256) ∧
     (sbdsp_mix_dsp true mem_ee frame_zero playing_dev).map (fun r => r.2.samples 6)
        = some (((19 : Int) - 128) * 256) ∧
     (sbdsp_mix_dsp true mem_ee frame_zero playing_dev).map (fun r => r.2.samples 10)
        = some 28160 ∧
     (sbdsp_mix_dsp true mem_ee frame_zero playing_dev).map (fun r => r.2.samples 11)
        = some 28160 ∧
     (sbdsp_mix_dsp false mem_ee frame_zero playing_dev).map (fun r => r.2.samples 10)
        = some 28160 ∧
     (sbdsp_mix_dsp true mem_11 frame_zero playing_dev).map (fun r => r.2.samples 10)
        = some (-28416) ∧
     ((0 : Int) - 128) * 256 = -32768) := by
  decide

set_option maxRecDepth 100000 in
/-- For every time-constant byte and every pulled count `x` in `1..4`, with the
step and the factor that Set Time Constant derives: `x * factor - 1` steps
already carry the offset over `x` whole input samples, and the products stay
small. -/
theorem factor_arith (tc x : Nat) (htc : tc < 256) (h1 : 1 ≤ x) (h4 : x ≤ 4) :
    65536 * x ≤ (x * (49716 / ((1000000 / (256 - tc)) % 65536) + 5) - 1)
      * ((1000000 / (256 - tc)) % 65536 * 65535 / 49716) ∧
    (x * (49716 / ((1000000 / (256 - tc)) % 65536) + 5) - 1)
      * ((1000000 / (256 - tc)) % 65536 * 65535 / 49716) < 2147483648 ∧
    1 ≤ x * (49716 / ((1000000 / (256 - tc)) % 65536) + 5) := by
  interval_cases x <;> (revert tc; decide)

/-- C17: with `sample_step` and `sample_factor` as stored by Set Time Constant
for any byte `tc`, from any `sample_offset` (any 16-bit fractional part) and any
pulled count `x = min(level, 4)` in `1..4`, the loop of `sbdsp_mix` ends because
the source index has reached `x` and not because `i` reached
`x * sample_factor`: the frame has fewer than `x * sample_factor` samples, the
source index computed from the final `sample_offset` is at least `x`, and
`sample_offset` has grown by `sample_count * sample_step` (as a 64-bit sum;
exactly, with `(sample_offset >> 16) - starting_offset >= x`, when that sum does
not overflow 64 bits). -/
theorem sample_factor_bounds_resampling (s0 : sbdsp_t) (tc k1 k2 : Nat) (cs : Bool)
    (stack : Int → Nat) (buffer : audio_buffer_t) (s : sbdsp_t)
    (htc : tc < 256) (hr0 : s0.reset_state = 0) (hc0 : s0.current_command = 0)
    (hpace : host_paced [(0x40, k1), (tc, k2)] s0 = true)
    (hstep : s.sample_step = (host_send [(0x40, k1), (tc, k2)] s0).sample_step)
    (hfac : s.sample_factor = (host_send [(0x40, k1), (tc, k2)] s0).sample_factor)
    (hen : s.dma_enabled = true) (hl : sbdsp_fifo_level s ≠ 0)
    (hoff : s.sample_offset < 18446744073709551616) :
    ∃ (s' : sbdsp_t) (g : audio_buffer_t),
      sbdsp_mix_dsp cs stack buffer s = some (s', g) ∧
      1 ≤ min (sbdsp_fifo_level s) 4 ∧ min (sbdsp_fifo_level s) 4 ≤ 4 ∧
      g.sample_count < min (sbdsp_fifo_level s) 4 * s.sample_factor ∧
      min (sbdsp_fifo_level s) 4 ≤ mix_index s'.sample_offset (s.sample_offset / 65536) ∧
      s'.sample_offset
        = (s.sample_offset + g.sample_count * s.sample_step) % 18446744073709551616 ∧
      (s.sample_offset + g.sample_count * s.sample_step < 18446744073709551616 →
        s'.sample_offset = s.sample_offset + g.sample_count * s.sample_step ∧
        min (sbdsp_fifo_level s) 4 ≤ s'.sample_offset / 65536 - s.sample_offset / 65536) := by
  obtain ⟨-, -, -, f4, f5, -, -⟩ := paced_time_constant_fields s0 tc k1 k2 htc hr0 hc0 hpace
  simp only [OUTPUT_SAMPLERATE] at f4 f5
  have hx1 : 1 ≤ min (sbdsp_fifo_level s) 4 := by omega
  have hx4 : min (sbdsp_fifo_level s) 4 ≤ 4 := min_le_right _ _
  have ha := factor_arith tc (min (sbdsp_fifo_level s) 4) htc hx1 hx4
  rw [← f4, ← f5, ← hstep, ← hfac] at ha
  obtain ⟨a1, a2, a3⟩ := ha
  obtain ⟨t, g, hg, hso, -, -, hcount, -, -⟩ := mix_dsp_enabled cs stack buffer s hen hl
  have hbreak := mix_loop_breaks cs (sbdsp_fifo_tx s stack 4).2.1 (min (sbdsp_fifo_level s) 4)
    s.sample_step (s.sample_offset / 65536) (min (sbdsp_fifo_level s) 4 * s.sample_factor)
    0 s.sample_offset buffer.samples (min (sbdsp_fifo_level s) 4 * s.sample_factor - 1)
    (by omega)
    (by
      rw [mix_offset_closed _ _ _ hoff]
      unfold mix_index
      generalize (min (sbdsp_fifo_level s) 4 * s.sample_factor - 1) * s.sample_step = p at a1 a2
      omega)
  have hexit := mix_loop_exit cs (sbdsp_fifo_tx s stack 4).2.1 (min (sbdsp_fifo_level s) 4)
    s.sample_step (s.sample_offset / 65536) (min (sbdsp_fifo_level s) 4 * s.sample_factor)
    0 s.sample_offset buffer.samples
  have hoffs := mix_loop_offset cs (sbdsp_fifo_tx s stack 4).2.1 (min (sbdsp_fifo_level s) 4)
    s.sample_step (s.sample_offset / 65536) (min (sbdsp_fifo_level s) 4 * s.sample_factor)
    0 s.sample_offset buffer.samples
  have hfirst := mix_loop_first cs (sbdsp_fifo_tx s stack 4).2.1 (min (sbdsp_fifo_level s) 4)
    s.sample_step (s.sample_offset / 65536) (min (sbdsp_fifo_level s) 4 * s.sample_factor)
    0 s.sample_offset buffer.samples a3 (by rw [mix_index_start]; omega)
  rw [← mix_resample_eq] at hbreak hexit hoffs hfirst
  have hne : (mix_resample cs stack buffer s).1 ≠ 0 := by omega
  rw [if_neg hne] at hcount
  rw [Nat.sub_zero, mix_offset_closed _ _ _ hoff] at hoffs
  have hlt : g.sample_count < min (sbdsp_fifo_level s) 4 * s.sample_factor := by
    rw [hcount]; omega
  have hidx : min (sbdsp_fifo_level s) 4
      ≤ mix_index t.sample_offset (s.sample_offset / 65536) := by
    rw [hso]
    exact hexit (by omega)
  have hsum : t.sample_offset
      = (s.sample_offset + g.sample_count * s.sample_step) % 18446744073709551616 := by
    rw [hso, hoffs, hcount]
  refine ⟨t, g, hg, hx1, hx4, hlt, hidx, hsum, ?_⟩
  intro hno
  have hexact : t.sample_offset = s.sample_offset + g.sample_count * s.sample_step := by
    rw [hsum]; exact Nat.mod_eq_of_lt hno
  refine ⟨hexact, ?_⟩
  rw [hexact] at hidx ⊢
  unfold mix_index at hidx
  generalize g.sample_count * s.sample_step = q at hidx hno ⊢
  omega

/-- C17 at a concrete state: the 22727 Hz device of `playing_dev`, whose rate
fields are the ones Set Time Constant stores for the byte 0xD4. -/
theorem sample_factor_bounds_resampling_witness :
    ((0xD4 : Nat) < 256 ∧ sbdsp_zero.reset_state = 0 ∧ sbdsp_zero.current_command = 0 ∧
      host_paced [(0x40, 1), (0xD4, 2)] sbdsp_zero = true ∧
      playing_dev.sample_step = (host_send [(0x40, 1), (0xD4, 2)] sbdsp_zero).sample_step ∧
      playing_dev.sample_factor = (host_send [(0x40, 1), (0xD4, 2)] sbdsp_zero).sample_factor ∧
      playing_dev.dma_enabled = true ∧ sbdsp_fifo_level playing_dev ≠ 0 ∧
      playing_dev.sample_offset < 18446744073709551616) ∧
    ∃ (s' : sbdsp_t) (g : audio_buffer_t),
      sbdsp_mix_dsp true mem_ee frame_zero playing_dev = some (s', g) ∧
      g.sample_count < min (sbdsp_fifo_level playing_dev) 4 * playing_dev.sample_factor ∧
      min (sbdsp_fifo_level playing_dev) 4
        ≤ mix_index s'.sample_offset (playing_dev.sample_offset / 65536) :=
  ⟨by decide,
    (sample_factor_bounds_resampling sbdsp_zero 0xD4 1 2 true mem_ee frame_zero playing_dev
      (by decide) (by decide) (by decide) (by decide) (by decide) (by decide) (by decide)
      (by decide) (by decide)).imp
      fun _ hs => hs.imp fun _ hg => ⟨hg.1, hg.2.2.2.1, hg.2.2.2.2.1⟩⟩

end SBDSP
